import Mathlib

/-!
Verification development for the simulation core of the `card_combinator`
game (src/game/card.rs, src/game/tile.rs).

The embedding models bevy entities as natural-number identities and the
entity store as an association list (first match wins, mirroring unique-key
queries).  Deferred `Commands` (spawns/despawns) are buffered per pass and
applied at the end of that pass, matching bevy's automatic sync points
between ordered systems.  Durations are in integer nanoseconds (as in
Rust's `Duration`); progress-bar seconds are rationals.
-/

namespace CardCombinator

/-- Entity identity (bevy `Entity`). -/
abbrev Entity := Nat

/-! ## Entity store: association list with first-match lookup -/

/-- A component store: entity-keyed association list. -/
abbrev Store (α : Type) := List (Entity × α)

namespace Store

/-- Lookup by identity, first match wins (bevy `Query::get`). -/
def lookup {α : Type} : Store α → Entity → Option α
  | [], _ => none
  | (k, v) :: rest, e => if k = e then some v else lookup rest e

/-- Mutate the component at a given identity in place (bevy `Query::get_mut`).
No-op when the entity is absent. -/
def modify {α : Type} : Store α → Entity → (α → α) → Store α
  | [], _, _ => []
  | (k, v) :: rest, e, f =>
    if k = e then (k, f v) :: modify rest e f else (k, v) :: modify rest e f

/-- Remove an entity from the store (despawn). -/
def remove {α : Type} (s : Store α) (e : Entity) : Store α :=
  s.filter (fun p => !(decide (p.1 = e)))

/-- Remove a batch of entities (applying deferred despawn commands). -/
def removeAll {α : Type} (s : Store α) (es : List Entity) : Store α :=
  es.foldl (fun acc e => remove acc e) s

/-- HashMap-style insert: replace the value when the key is present, append
otherwise; also returns the previous value (Rust `HashMap::insert`). -/
def insertR {α : Type} (s : Store α) (e : Entity) (v : α) : Store α × Option α :=
  match lookup s e with
  | some old => (modify s e (fun _ => v), some old)
  | none => (s ++ [(e, v)], none)

/-- HashMap-style remove returning the removed value (Rust `HashMap::remove`). -/
def removeR {α : Type} (s : Store α) (e : Entity) : Store α × Option α :=
  (remove s e, lookup s e)

theorem lookup_modify_self {α : Type} (s : Store α) (e : Entity) (f : α → α) :
    lookup (modify s e f) e = (lookup s e).map f := by
  induction s with
  | nil => rfl
  | cons p rest ih =>
    obtain ⟨k, v⟩ := p
    by_cases h : k = e
    · simp [lookup, modify, h]
    · simp [lookup, modify, h, ih]

theorem lookup_modify_ne {α : Type} (s : Store α) (e e' : Entity) (f : α → α)
    (h : e' ≠ e) : lookup (modify s e f) e' = lookup s e' := by
  induction s with
  | nil => rfl
  | cons p rest ih =>
    obtain ⟨k, v⟩ := p
    by_cases hk : k = e
    · subst hk
      simp [lookup, modify, Ne.symm h, ih]
    · by_cases hk' : k = e'
      · simp [lookup, modify, hk, hk', h]
      · simp [lookup, modify, hk, hk', ih]

theorem lookup_modify {α : Type} (s : Store α) (e e' : Entity) (f : α → α) :
    lookup (modify s e f) e' =
      if e' = e then (lookup s e).map f else lookup s e' := by
  by_cases h : e' = e
  · subst h; simp [lookup_modify_self]
  · simp [h, lookup_modify_ne s e e' f h]

theorem lookup_remove {α : Type} (s : Store α) (e e' : Entity) :
    lookup (remove s e) e' = if e' = e then none else lookup s e' := by
  induction s with
  | nil => simp [remove, lookup]
  | cons p rest ih =>
    obtain ⟨k, v⟩ := p
    by_cases hk : k = e
    · subst hk
      by_cases h : e' = k
      · subst h; simpa [remove, lookup] using ih
      · simpa [remove, lookup, h, Ne.symm h] using ih
    · by_cases h' : k = e'
      · subst h'
        have hne : ¬ k = e := hk
        simp [remove, lookup, hne, Ne.symm hne]
      · simpa [remove, lookup, hk, h'] using ih

theorem lookup_append {α : Type} (s t : Store α) (e : Entity) :
    lookup (s ++ t) e =
      match lookup s e with
      | some v => some v
      | none => lookup t e := by
  induction s with
  | nil => simp [lookup]
  | cons p rest ih =>
    obtain ⟨k, v⟩ := p
    by_cases hk : k = e
    · simp [lookup, hk]
    · simpa [lookup, hk] using ih

end Store

/-! ## Timers (external bevy `Timer`, repeating mode, nanosecond precision) -/

/-- Nanoseconds per second, for `Timer::from_seconds`. -/
def NANOS_PER_SEC : Nat := 1000000000

/-- External bevy repeating `Timer`: elapsed/duration in nanoseconds plus the
"just finished this tick" flag. -/
structure Timer where
  elapsed : Nat
  duration : Nat
  just_finished : Bool
deriving DecidableEq, Repr

/-- `Timer::from_seconds(secs, TimerMode::Repeating)` with the duration
already converted to nanoseconds. -/
def Timer.from_nanos (d : Nat) : Timer :=
  { elapsed := 0, duration := d, just_finished := false }

/-- `Timer::tick(delta)` for a repeating timer: accumulate the delta, flag
completion when the duration is reached and wrap the remainder. -/
def Timer.tick (t : Timer) (delta : Nat) : Timer :=
  let e := t.elapsed + delta
  if t.duration ≤ e then
    { elapsed := e % t.duration, duration := t.duration, just_finished := true }
  else
    { elapsed := e, duration := t.duration, just_finished := false }

/-! ## Progress bars -/

/-- Modelled from the spec: the repository's `progress_bar.rs` is not among
the provided sources; the spec fixes only its numeric contract ("counts
elapsed time toward a duration, exposes just completed this tick", §2) via
`add`, `finished` and `reset`.  The purely visual `width`/`height`/`padding`
fields are omitted. -/
structure ProgressBar where
  current : ℚ
  total : ℚ
deriving DecidableEq, Repr

/-- Advance the bar by a number of elapsed seconds. -/
def ProgressBar.add (b : ProgressBar) (delta : ℚ) : ProgressBar :=
  { b with current := b.current + delta }

/-- The bar has reached its total. -/
def ProgressBar.finished (b : ProgressBar) : Bool :=
  decide (b.total ≤ b.current)

/-- Restart the bar from zero. -/
def ProgressBar.reset (b : ProgressBar) : ProgressBar :=
  { b with current := 0 }

/-! ## Card data model (src/game/card.rs) -/

/-- `CardType`: closed set of card kinds. -/
inductive CardType
  | Villager
  | Log
  | Goblin
deriving DecidableEq, Repr

/-- `CardClass`. -/
inductive CardClass
  | Villager
  | Resource
  | Enemy
deriving DecidableEq, Repr

/-- `CardType::class`. -/
def CardType.cardClass : CardType → CardClass
  | .Villager => .Villager
  | .Log => .Resource
  | .Goblin => .Enemy

/-- `CardStats`: health is signed (`isize`), max_health/damage unsigned. -/
structure CardStats where
  health : Int
  max_health : Nat
  damage : Nat
deriving DecidableEq, Repr

/-- `CardType::get_initial_stats`. -/
def CardType.get_initial_stats : CardType → CardStats
  | .Villager => { health := 3, max_health := 3, damage := 1 }
  | .Goblin => { health := 1, max_health := 1, damage := 1 }
  | .Log => { health := 0, max_health := 0, damage := 0 }

/-- `CombatState`: cooldown timer plus target identity. -/
structure CombatState where
  cooldown : Timer
  target : Entity
deriving DecidableEq, Repr

/-- `CardInfo`. -/
structure CardInfo where
  card_type : CardType
  stats : CardStats
deriving DecidableEq, Repr

/-- `CardInfo::from(card_type)`. -/
def CardInfo.ofType (t : CardType) : CardInfo :=
  { card_type := t, stats := t.get_initial_stats }

/-- The `Card` component.  The purely visual `animations` and `z` fields are
omitted; positions live in a separate transform store. -/
structure Card where
  info : CardInfo
  combat_state : Option CombatState := none
  stack_parent : Option Entity := none
  stack_child : Option Entity := none
  slotted_in_tile : Option Entity := none
deriving DecidableEq, Repr

/-- `Card::from(card_type)`. -/
def Card.ofType (t : CardType) : Card :=
  { info := CardInfo.ofType t }

/-- `Card::card_type`. -/
def Card.card_type (c : Card) : CardType := c.info.card_type

/-- `Card::class`. -/
def Card.cardClass (c : Card) : CardClass := c.info.card_type.cardClass

/-- `Card::is_stackable`: not slotted in a tile and not enemy-class. -/
def Card.is_stackable (c : Card) : Bool :=
  c.slotted_in_tile.isNone && !(decide (c.cardClass = CardClass.Enemy))

/-- `Card::is_player_controlled`. -/
def Card.is_player_controlled (c : Card) : Bool :=
  match c.cardClass with
  | .Villager => true
  | .Resource => true
  | .Enemy => false

/-- `Card::in_stack`. -/
def Card.in_stack (c : Card) : Bool :=
  c.stack_parent.isSome || c.stack_child.isSome

/-- `StackType`: classification of a stack root. -/
inductive StackType
  | Pending
  | Nothing
  | Breed (progress_bar : Entity)
deriving DecidableEq, Repr

/-- The `StackRoots` resource: root classifications plus the queued-dirty
set (the `HashSet` is modelled as a duplicate-free list). -/
structure StackRoots where
  roots : Store StackType
  queued_stack_recomputations : List Entity
deriving DecidableEq, Repr

/-- Set-style insert into the queued-recomputation list. -/
def qinsert (l : List Entity) (e : Entity) : List Entity :=
  if e ∈ l then l else l ++ [e]

/-! ## Tiles (src/game/tile.rs) -/

/-- The `Tile` component. -/
inductive Tile
  | Woods (slotted_villager : Option Entity) (progress_bar : Option Entity)
  | Enemies (progress_bar : Option Entity)
deriving DecidableEq, Repr

/-- `Tile::has_slot`. -/
def Tile.has_slot : Tile → Bool
  | .Woods _ _ => true
  | .Enemies _ => false

/-- Result of `Tile::try_slotting_card`: the returned flag, the updated tile,
and the progress bar spawned (via deferred commands) as a child of the tile. -/
structure SlotResult where
  ok : Bool
  tile : Tile
  spawned_bar : Option (Entity × ProgressBar)
deriving DecidableEq, Repr

/-- `Tile::try_slotting_card`.  The `fresh` argument is the identity the
deferred spawn reserves for the new progress bar; `_tile_entity` (the parent
of the spawned bar) is kept for fidelity with the source signature. -/
def Tile.try_slotting_card (t : Tile) (_tile_entity : Entity) (card_entity : Entity)
    (card : Card) (fresh : Entity) : SlotResult :=
  match t with
  | .Woods slotted_villager _progress_bar =>
    if slotted_villager.isNone && decide (card.cardClass = CardClass.Villager) then
      { ok := true
        tile := .Woods (some card_entity) (some fresh)
        spawned_bar := some (fresh, { current := 0, total := 15 }) }
    else
      { ok := false, tile := t, spawned_bar := none }
  | .Enemies _ =>
    { ok := false, tile := t, spawned_bar := none }

/-! ## World state -/

/-- Translation vectors with rational coordinates; the source's f32 math
that the claims depend on uses only additions and squared-distance
comparisons, both exact over rationals. -/
structure Vec3 where
  x : ℚ
  y : ℚ
  z : ℚ
deriving DecidableEq, Repr

/-- Squared straight-line distance (`Vec3::distance_squared`). -/
def Vec3.distSq (a b : Vec3) : ℚ :=
  (a.x - b.x) ^ 2 + (a.y - b.y) ^ 2 + (a.z - b.z) ^ 2

/-- The game world: component stores plus the resources the core mutates. -/
structure World where
  cards : Store Card
  transforms : Store Vec3
  stack_roots : StackRoots
  tiles : Store Tile
  bars : Store ProgressBar
  selected_card : Option Entity
  hovered_tile : Option Entity
  next_id : Entity
deriving DecidableEq, Repr

/-! ## Combat damage pass (`combat`, card.rs:894-933) -/

/-- The target-side mutation of the damage pass: clamp the damaged health at
zero, then give the target a retaliating 0.9-second combat state aimed at
the attacker when it has none yet. -/
def apply_damage (attacker : Entity) (damage : Nat) (tc : Card) : Card :=
  let tc1 := { tc with info := { tc.info with stats :=
    { tc.info.stats with health := max (tc.info.stats.health - (damage : Int)) 0 } } }
  if tc1.combat_state.isNone then
    let retaliation : CombatState :=
      { cooldown := Timer.from_nanos 900000000, target := attacker }
    { tc1 with combat_state := some retaliation }
  else tc1

/-- One iteration of the `combat` loop body for `entity`: tick the cooldown
inside the first borrow; on completion perform the atomic two-entity fetch
`cards.get_many_mut([damaged_entity, entity])` and apply damage,
retaliation and death handling.  Deferred despawn commands accumulate in
the second component. -/
def combat_step (st : Store Card × List Entity) (delta : Nat) (entity : Entity) :
    Store Card × List Entity :=
  let (cards, despawned) := st
  match Store.lookup cards entity with
  | none => (cards, despawned)   -- `cards.get_mut(entity).unwrap()`: entity comes from the card query
  | some card =>
    match card.combat_state with
    | none => (cards, despawned)
    | some cs =>
      let cooldown := cs.cooldown.tick delta
      let cards1 := Store.modify cards entity
        (fun c => { c with combat_state := some ({ cooldown := cooldown, target := cs.target } : CombatState) })
      if cooldown.just_finished then
        let damaged_entity := cs.target
        let damage := card.info.stats.damage
        if damaged_entity ≠ entity ∧ (Store.lookup cards1 damaged_entity).isSome then
          -- `Ok([mut target_card, mut card])`
          let cards2 := Store.modify cards1 damaged_entity (apply_damage entity damage)
          match Store.lookup cards2 damaged_entity with
          | some tc2 =>
            if tc2.info.stats.health = 0 then
              (Store.modify cards2 entity (fun c => { c with combat_state := none }),
                despawned ++ [damaged_entity])
            else (cards2, despawned)
          | none => (cards2, despawned)   -- unreachable: the key was just modified
        else
          -- the two-entity fetch failed: clear the attacker's combat state
          (Store.modify cards1 entity (fun c => { c with combat_state := none }),
            despawned)
      else (cards1, despawned)

/-- The whole `combat` loop over `card_entities`, before applying deferred
despawns. -/
def combat_results (cards : Store Card) (delta : Nat) : Store Card × List Entity :=
  (cards.map Prod.fst).foldl (fun st e => combat_step st delta e) (cards, [])

/-- The `combat` system: run the loop, then apply the deferred despawn
commands at the end of the pass. -/
def combat_sys (w : World) (delta : Nat) : World :=
  let r := combat_results w.cards delta
  { w with
    cards := Store.removeAll r.1 r.2
    transforms := Store.removeAll w.transforms r.2 }

/-! ## Targeting pass (`handle_enemies`, card.rs:838-892) -/

/-- Inner loop of the targeting pass: the closest villager-class card to
`origin` by squared distance, first found winning ties (iteration order =
store order). -/
def nearest_villager (cards : Store Card) (transforms : Store Vec3)
    (origin : Vec3) : Option (Entity × Vec3) :=
  cards.foldl (fun current p =>
    match Store.lookup transforms p.1 with
    | none => current
    | some ttr =>
      if p.2.cardClass = CardClass.Villager then
        match current with
        | some (_, cur) =>
          if Vec3.distSq cur origin > Vec3.distSq ttr origin then
            some (p.1, ttr)
          else current
        | none => some (p.1, ttr)
      else current) none

/-- One card of the first loop of `handle_enemies`: an enemy card with no
combat state contributes its nearest villager as a target (cards already
Engaging are skipped). -/
def enemy_target_acc (cards : Store Card) (transforms : Store Vec3)
    (acc : List (Entity × Entity × Vec3)) (p : Entity × Card) :
    List (Entity × Entity × Vec3) :=
  if p.2.combat_state.isSome then acc
  else if p.2.cardClass = CardClass.Enemy then
    match Store.lookup transforms p.1 with
    | none => acc
    | some tr =>
      match nearest_villager cards transforms tr with
      | some (target, target_translation) => acc ++ [(p.1, target, target_translation)]
      | none => acc
  else acc

/-- First loop of `handle_enemies`. -/
def enemy_targets_of (cards : Store Card) (transforms : Store Vec3) :
    List (Entity × Entity × Vec3) :=
  cards.foldl (enemy_target_acc cards transforms) []

/-- Second loop of `handle_enemies`: approach or engage each chosen target.
The out-of-range movement step `direction.normalize() * delta_seconds` is
f32 vector math outside the rational embedding; it is supplied as the
uninterpreted `approach` function (the claims settled here do not depend on
it, and the in-range test `distance.length() > 1.0` is embedded exactly as
`distSq > 1`). -/
def handle_enemy_one (delta : Nat) (approach : Vec3 → Vec3 → ℚ → Vec3)
    (w0 : World) (t : Entity × Entity × Vec3) : World :=
  let enemy := t.1
  let target := t.2.1
  let target_translation := t.2.2
  -- `cards.get_many_mut([enemy, target]).unwrap()`
  if enemy ≠ target ∧ (Store.lookup w0.cards enemy).isSome ∧
      (Store.lookup w0.cards target).isSome then
    match Store.lookup w0.transforms enemy with
    | none => w0
    | some tr =>
      if Vec3.distSq target_translation tr > 1 then
        -- still approaching: move and clear any combat state
        { w0 with
          transforms := Store.modify w0.transforms enemy
            (fun t0 => approach t0 target_translation
              ((delta : ℚ) / (NANOS_PER_SEC : ℚ)))
          cards := Store.modify w0.cards enemy
            (fun c => { c with combat_state := none }) }
      else
        -- in melee range: engage with a repeating 1-second cooldown
        { w0 with cards := Store.modify w0.cards enemy (fun c =>
            let engage : CombatState :=
              { cooldown := Timer.from_nanos NANOS_PER_SEC, target := target }
            { c with combat_state := some engage }) }
  else w0

def handle_enemies_sys (w : World) (delta : Nat)
    (approach : Vec3 → Vec3 → ℚ → Vec3) : World :=
  (enemy_targets_of w.cards w.transforms).foldl (handle_enemy_one delta approach) w

/-! ## Stack chain traversal (card.rs:531-557) -/

/-- `find_stack_top`: walk `stack_child` links to the end; a stale identity
ends the walk.  The source loops unboundedly; `fuel` bounds the walk and
exceeds every acyclic chain length at the call sites. -/
def find_stack_top (cards : Store Card) : Nat → Entity → Entity
  | 0, e => e
  | fuel + 1, e =>
    match Store.lookup cards e with
    | none => e
    | some card =>
      match card.stack_child with
      | none => e
      | some child => find_stack_top cards fuel child

/-- `find_stack_root`: walk `stack_parent` links to the end. -/
def find_stack_root (cards : Store Card) : Nat → Entity → Entity
  | 0, e => e
  | fuel + 1, e =>
    match Store.lookup cards e with
    | none => e
    | some card =>
      match card.stack_parent with
      | none => e
      | some parent => find_stack_root cards fuel parent

/-! ## Collision attach pass (`collide_cards`, card.rs:461-529) -/

/-- Phase 1 of `collide_cards`: turn this tick's collision-started events
into ordered (front, back) stacking candidates, skipping pairs involving
the held card and requiring the front card to be unparented. -/
def stack_x_on_y_of (w : World) (collisions : List (Entity × Entity)) :
    List (Entity × Entity) :=
  collisions.foldl (fun acc ev =>
    let (e1, e2) := ev
    if w.selected_card = some e1 ∨ w.selected_card = some e2 then acc
    else if e1 = e2 then acc   -- `get_many_mut` rejects duplicate identities
    else
      match Store.lookup w.cards e1, Store.lookup w.cards e2,
            Store.lookup w.transforms e1, Store.lookup w.transforms e2 with
      | some c1, some c2, some t1, some t2 =>
        if t1.z > t2.z then
          if c1.stack_parent = none then acc ++ [(e1, e2)] else acc
        else
          if c2.stack_parent = none then acc ++ [(e2, e1)] else acc
      | _, _, _, _ => acc) []

/-- Phase 2 of `collide_cards` for one candidate pair: find the top of the
back card's stack, re-check the attach guards under the atomic two-entity
fetch, link both sides and update the StackRoots registry. -/
def collide_attach (cards : Store Card) (sr : StackRoots) (ex ey : Entity) :
    Store Card × StackRoots :=
  let top := find_stack_top cards cards.length ey
  if ex = top then (cards, sr)   -- `get_many_mut` rejects duplicate identities
  else
    match Store.lookup cards ex, Store.lookup cards top with
    | some cx, some ctop =>
      if cx.stack_parent = none ∧ ctop.stack_child = none ∧
          ctop.is_stackable ∧ cx.is_stackable then
        -- update pointers
        let cards1 := Store.modify cards top (fun c => { c with stack_child := some ex })
        let cards2 := Store.modify cards1 ex (fun c => { c with stack_parent := some top })
        -- roots entry for `top`: queue it, creating a Pending entry when new
        let roots1 :=
          match Store.lookup sr.roots top with
          | some _ => sr.roots
          | none => sr.roots ++ [(top, StackType.Pending)]
        let queued1 := qinsert sr.queued_stack_recomputations top
        -- roots entry for `ex`: queue for recomputation (hence removal) if present
        let queued2 :=
          match Store.lookup sr.roots ex with
          | some _ => qinsert queued1 ex
          | none => queued1
        (cards2, { roots := roots1, queued_stack_recomputations := queued2 })
      else (cards, sr)
    | _, _ => (cards, sr)

/-- The `collide_cards` system. -/
def collide_cards_sys (w : World) (collisions : List (Entity × Entity)) : World :=
  let pairs := stack_x_on_y_of w collisions
  let st := pairs.foldl (fun st p => collide_attach st.1 st.2 p.1 p.2)
    (w.cards, w.stack_roots)
  { w with cards := st.1, stack_roots := st.2 }

/-! ## Selection pass (`select_card`, card.rs:559-683) -/

/-- The `mouse.just_pressed` branch of `select_card`, given the entity the
external ray cast resolved (the picking math is an out-of-scope
collaborator): unslot from any tile, select the card, and detach it from
its stack parent. -/
def select_pickup (w : World) (entity : Entity) : World :=
  match Store.lookup w.cards entity with
  | none => w   -- `cards.get(entity).unwrap()`: the ray only hits card colliders
  | some card =>
    if card.is_player_controlled then
      -- unslot from tile: clear the slot but keep the tile's progress_bar field
      let tiles1 :=
        match card.slotted_in_tile with
        | none => w.tiles
        | some tile_entity =>
          match Store.lookup w.tiles tile_entity with
          | none => w.tiles   -- `tiles.get_mut(..).unwrap()`
          | some (Tile.Woods _slotted_villager progress_bar) =>
            Store.modify w.tiles tile_entity (fun _ => Tile.Woods none progress_bar)
          | some (Tile.Enemies _) => w.tiles
      let bars1 :=
        match card.slotted_in_tile with
        | none => w.bars
        | some tile_entity =>
          match Store.lookup w.tiles tile_entity with
          | some (Tile.Woods _ (some progress_bar)) =>
            Store.remove w.bars progress_bar   -- deferred `despawn_recursive`
          | _ => w.bars
      let parent := card.stack_parent
      let child := card.stack_child
      let cards1 := Store.modify w.cards entity
        (fun c => { c with slotted_in_tile := none, stack_parent := none })
      -- finish unstack
      let st :=
        match parent with
        | none => (cards1, w.stack_roots)
        | some p =>
          let cards2 := Store.modify cards1 p (fun c => { c with stack_child := none })
          -- queue parent for recomputation
          let queued1 := qinsert w.stack_roots.queued_stack_recomputations p
          if child.isSome then
            -- unstacked card now heads its own sub-stack: new Pending root
            let roots1 := (Store.insertR w.stack_roots.roots entity StackType.Pending).1
            (cards2, { roots := roots1,
                       queued_stack_recomputations := qinsert queued1 entity })
          else
            (cards2, { roots := w.stack_roots.roots,
                       queued_stack_recomputations := queued1 })
      { w with cards := st.1, tiles := tiles1, bars := bars1,
               stack_roots := st.2, selected_card := some entity }
    else w

/-- The `mouse.just_released` branch of `select_card`: deselect and, when
the card is not in a stack and the release point passes the external
slot-bounds test over the hovered tile, try slotting it. -/
def select_release (w : World) (slot_hit : Bool) : World :=
  match w.selected_card with
  | none => w
  | some entity =>
    match Store.lookup w.cards entity with
    | none => w   -- `cards.get_mut(entity).unwrap()`
    | some card =>
      let w1 := { w with selected_card := none }
      if card.in_stack then w1
      else
        match w1.hovered_tile with
        | none => w1
        | some tile_entity =>
          match Store.lookup w1.tiles tile_entity with
          | none => w1
          | some tile =>
            if slot_hit then
              let fresh := w1.next_id
              let r := tile.try_slotting_card tile_entity entity card fresh
              if r.ok then
                { w1 with
                  tiles := Store.modify w1.tiles tile_entity (fun _ => r.tile)
                  bars := w1.bars ++
                    (match r.spawned_bar with | some b => [b] | none => [])
                  cards := Store.modify w1.cards entity
                    (fun c => { c with slotted_in_tile := some tile_entity })
                  next_id := w1.next_id + 1 }
              else w1
            else w1

/-- The `select_card` system: press branch then release branch. -/
def select_card_sys (w : World) (pressed : Option Entity) (released : Bool)
    (slot_hit : Bool) : World :=
  let w1 :=
    match pressed with
    | some entity => select_pickup w entity
    | none => w
  if released then select_release w1 slot_hit else w1

/-! ## Stack recomputation pass (`evaluate_stacks`, card.rs:685-803) -/

/-- One `HashMap::entry(..).or_insert(0); *count += 1` step of
`get_cards_types`. -/
def bump (m : List (CardType × Nat)) (t : CardType) : List (CardType × Nat) :=
  match m with
  | [] => [(t, 1)]
  | (t0, n) :: rest => if t0 = t then (t0, n + 1) :: rest else (t0, n) :: bump rest t

/-- The chain walk of `get_cards_types`: from `current` along `stack_child`
links, counting the card type of every card visited; a stale identity ends
the walk. -/
def get_cards_types_walk (cards : Store Card) :
    Nat → Entity → List (CardType × Nat) → List (CardType × Nat)
  | 0, _, m => m
  | fuel + 1, current, m =>
    match Store.lookup cards current with
    | none => m
    | some card =>
      let m1 := bump m card.card_type
      match card.stack_child with
      | none => m1
      | some child => get_cards_types_walk cards fuel child m1

/-- `get_cards_types(root, &cards)`. -/
def get_cards_types (root : Entity) (cards : Store Card) : List (CardType × Nat) :=
  get_cards_types_walk cards (cards.length + 1) root []

/-- `card_types.get(&t).unwrap_or(&0)`. -/
def type_count (m : List (CardType × Nat)) (t : CardType) : Nat :=
  match m with
  | [] => 0
  | (t0, n) :: rest => if t0 = t then n else type_count rest t

/-- The new stack type computed in `evaluate_stacks` for a true root:
exactly two villagers and no other type breed, spawning a 5-second
progress bar under the reserved `fresh` identity; every other composition
is `Nothing`. -/
def classify_stack (cards : Store Card) (root : Entity) (fresh : Entity) :
    StackType × List (Entity × ProgressBar) :=
  let card_types := get_cards_types root cards
  let villagers := type_count card_types CardType.Villager
  if villagers = 2 ∧ card_types.length = 1 then
    (StackType.Breed fresh, [(fresh, { current := 0, total := 5 })])
  else
    (StackType.Nothing, [])

/-- State threaded through the queued-recomputation drain: the roots map
plus this pass's deferred bar spawns/despawns and the fresh-id counter. -/
structure RecomputeState where
  roots : Store StackType
  spawned_bars : List (Entity × ProgressBar)
  despawned_bars : List Entity
  next_id : Entity
deriving DecidableEq, Repr

/-- One drained entity of the recomputation loop: drop the entity's own
entry when it is no longer a root, classify the true root's chain, insert
the new classification and collect cancelled classifications, destroying
any timer a cancelled `Breed` owned. -/
def recompute_one (cards : Store Card) (st : RecomputeState) (entity : Entity) :
    RecomputeState :=
  let root := find_stack_root cards cards.length entity
  let r1 :=
    if root ≠ entity then
      match Store.removeR st.roots entity with
      | (roots1, some stack_type) => (roots1, [stack_type])
      | (_, none) => (st.roots, ([] : List StackType))
    else (st.roots, [])
  let cls := classify_stack cards root st.next_id
  let next1 :=
    match cls.1 with
    | StackType.Breed _ => st.next_id + 1
    | _ => st.next_id
  let r2 := Store.insertR r1.1 root cls.1
  let cancelled := r1.2 ++ r2.2.toList
  let newly_despawned := cancelled.foldl (fun acc s =>
    match s with
    | StackType.Breed pb => acc ++ [pb]
    | _ => acc) []
  { roots := r2.1
    spawned_bars := st.spawned_bars ++ cls.2
    despawned_bars := st.despawned_bars ++ newly_despawned
    next_id := next1 }

/-- State threaded through the per-root breed tick loop. -/
structure RootTickState where
  roots : Store StackType
  bars : Store ProgressBar
  despawned_bars : List Entity
  pending_cards : List (Entity × Card × Vec3)
  queued : List Entity
  next_id : Entity
deriving DecidableEq, Repr

/-- One entry of the per-root loop of `evaluate_stacks`: advance a Breed
root's bar; on completion despawn the bar, spawn a new Villager offset from
the root, reset the root to `Pending` and queue it for recomputation. -/
def root_tick_one (transforms : Store Vec3) (delta_secs : ℚ)
    (st : RootTickState) (entry : Entity × StackType) : RootTickState :=
  let root := entry.1
  match Store.lookup st.roots root with
  | some (StackType.Breed progress_bar) =>
    match Store.lookup st.bars progress_bar with
    | none => st   -- this pass's own spawned bars are still deferred commands
    | some bar0 =>
      let bar := bar0.add delta_secs
      let bars1 := Store.modify st.bars progress_bar (fun _ => bar)
      if bar.finished then
        let r :=
          match Store.lookup transforms root with
          | some tr =>
            (st.pending_cards ++ [(st.next_id, Card.ofType CardType.Villager,
              ({ x := tr.x + 1, y := tr.y, z := 0 } : Vec3))], st.next_id + 1)
          | none => (st.pending_cards, st.next_id)
        { roots := Store.modify st.roots root (fun _ => StackType.Pending)
          bars := bars1
          despawned_bars := st.despawned_bars ++ [progress_bar]
          pending_cards := r.1
          queued := st.queued ++ [root]
          next_id := r.2 }
      else { st with bars := bars1 }
  | _ => st

/-- The `evaluate_stacks` system: drain the queued recomputations, run the
per-root breed tick, then apply this pass's deferred commands (bar spawns
and despawns, spawned cards) and re-queue completed roots. -/
def evaluate_stacks_sys (w : World) (delta : Nat) : World :=
  let delta_secs := (delta : ℚ) / (NANOS_PER_SEC : ℚ)
  let rst := w.stack_roots.queued_stack_recomputations.foldl
    (fun st e => recompute_one w.cards st e)
    { roots := w.stack_roots.roots, spawned_bars := [], despawned_bars := [],
      next_id := w.next_id }
  let tst := rst.roots.foldl (root_tick_one w.transforms delta_secs)
    { roots := rst.roots, bars := w.bars, despawned_bars := [],
      pending_cards := [], queued := [], next_id := rst.next_id }
  let bars1 := Store.removeAll (tst.bars ++ rst.spawned_bars)
    (rst.despawned_bars ++ tst.despawned_bars)
  { w with
    cards := w.cards ++ tst.pending_cards.map (fun p => (p.1, p.2.1))
    transforms := w.transforms ++ tst.pending_cards.map (fun p => (p.1, p.2.2))
    bars := bars1
    stack_roots := { roots := tst.roots,
                     queued_stack_recomputations := tst.queued.foldl qinsert [] }
    next_id := tst.next_id }

/-! ## Tile production pass (`evaluate_tiles`, tile.rs:351-402) -/

/-- State threaded through the tile production loop. -/
structure TileTickState where
  bars : Store ProgressBar
  pending_cards : List (Entity × Card × Vec3)
  next_id : Entity
deriving DecidableEq, Repr

/-- `Tile::SPAWN_OFFSET`. -/
def TILE_SPAWN_OFFSET : ℚ := 95 / 100

/-- One tile of `evaluate_tiles`: advance the tile's production bar when the
recorded bar identity is still live (a stale identity is silently skipped);
on completion spawn a Log (Woods) or Goblin (Enemies) and reset the bar.
The tile component itself is never written. -/
def evaluate_tile_one (delta_secs : ℚ) (transform : Vec3)
    (st : TileTickState) (tile : Tile) : TileTickState :=
  match tile with
  | .Woods _slotted_villager progress_bar =>
    match progress_bar with
    | none => st
    | some bar_entity =>
      match Store.lookup st.bars bar_entity with
      | none => st   -- stale bar identity: silently skipped
      | some bar0 =>
        let bar := bar0.add delta_secs
        if bar.finished then
          { bars := Store.modify st.bars bar_entity (fun _ => bar.reset)
            pending_cards := st.pending_cards ++
              [(st.next_id, Card.ofType CardType.Log,
                ({ x := transform.x + TILE_SPAWN_OFFSET, y := transform.y, z := 0 } : Vec3))]
            next_id := st.next_id + 1 }
        else { st with bars := Store.modify st.bars bar_entity (fun _ => bar) }
  | .Enemies progress_bar =>
    match progress_bar with
    | none => st
    | some bar_entity =>
      match Store.lookup st.bars bar_entity with
      | none => st
      | some bar0 =>
        let bar := bar0.add delta_secs
        if bar.finished then
          { bars := Store.modify st.bars bar_entity (fun _ => bar.reset)
            pending_cards := st.pending_cards ++
              [(st.next_id, Card.ofType CardType.Goblin,
                ({ x := transform.x, y := transform.y, z := 0 } : Vec3))]
            next_id := st.next_id + 1 }
        else { st with bars := Store.modify st.bars bar_entity (fun _ => bar) }

/-- The `evaluate_tiles` system. -/
def evaluate_tiles_sys (w : World) (delta : Nat) : World :=
  let delta_secs := (delta : ℚ) / (NANOS_PER_SEC : ℚ)
  let st := w.tiles.foldl (fun st entry =>
    match Store.lookup w.transforms entry.1 with
    | none => st   -- the query pairs every tile with its transform
    | some tr => evaluate_tile_one delta_secs tr st entry.2)
    { bars := w.bars, pending_cards := [], next_id := w.next_id }
  { w with
    bars := st.bars
    cards := w.cards ++ st.pending_cards.map (fun p => (p.1, p.2.1))
    transforms := w.transforms ++ st.pending_cards.map (fun p => (p.1, p.2.2))
    next_id := st.next_id }

/-! ## The full tick -/

/-- Per-tick external inputs: this tick's collision-started events, the
entity resolved by the ray cast when the left button was just pressed, the
just-released edge, and the external release-point-inside-slot-bounds test. -/
structure TickInput where
  collisions : List (Entity × Entity)
  pressed : Option Entity
  released : Bool
  slot_hit : Bool
deriving DecidableEq, Repr

/-- The tick pipeline up to (and excluding) the combat pass, in the source's
system order: `collide_cards` → `select_card` → `evaluate_stacks` →
`evaluate_tiles` → `handle_enemies`.  The purely visual systems
(`move_cards`, `set_hearts`, `hover_tile`, `on_spawn_card`) mutate no core
state modelled here; `evaluate_tiles` is placed between the stack and
targeting passes, one of the linearizations the source's partial system
order admits. -/
def tick_pre_combat (w : World) (input : TickInput) (delta : Nat)
    (approach : Vec3 → Vec3 → ℚ → Vec3) : World :=
  let w1 := collide_cards_sys w input.collisions
  let w2 := select_card_sys w1 input.pressed input.released input.slot_hit
  let w3 := evaluate_stacks_sys w2 delta
  let w4 := evaluate_tiles_sys w3 delta
  handle_enemies_sys w4 delta approach

/-- One full simulation tick: the pre-combat pipeline followed by the damage
pass. -/
def tick (w : World) (input : TickInput) (delta : Nat)
    (approach : Vec3 → Vec3 → ℚ → Vec3) : World :=
  combat_sys (tick_pre_combat w input delta approach) delta

/-- The deferred despawns the damage pass issues during a given tick. -/
def tick_despawns (w : World) (input : TickInput) (delta : Nat)
    (approach : Vec3 → Vec3 → ℚ → Vec3) : List Entity :=
  (combat_results (tick_pre_combat w input delta approach).cards delta).2

/-! ## Shared lemmas about the damage pass -/

theorem apply_damage_health (a : Entity) (d : Nat) (tc : Card) :
    (apply_damage a d tc).info.stats.health =
      max (tc.info.stats.health - (d : Int)) 0 := by
  simp only [apply_damage]
  split <;> rfl

theorem apply_damage_links (a : Entity) (d : Nat) (tc : Card) :
    (apply_damage a d tc).stack_parent = tc.stack_parent ∧
      (apply_damage a d tc).stack_child = tc.stack_child := by
  simp only [apply_damage]
  split <;> exact ⟨rfl, rfl⟩

/-! ## Claim C4: damage clamps at zero -/

/-- C4: for every damage application with prior target health H (signed) and
attacker damage D ≥ 0, the resulting target health equals max(0, H − D) and
is never negative.  The hypotheses state that a damage application happens
for this attacker: it is engaged, its ticked cooldown just finished, and
the atomic two-entity fetch succeeds. -/
theorem C4_damage_clamps_at_zero
    (cards : Store Card) (despawned : List Entity) (delta : Nat) (entity : Entity)
    (card : Card) (cs : CombatState) (tc : Card)
    (hcard : Store.lookup cards entity = some card)
    (hcs : card.combat_state = some cs)
    (hfin : (cs.cooldown.tick delta).just_finished = true)
    (hne : cs.target ≠ entity)
    (htc : Store.lookup cards cs.target = some tc) :
    ∃ tc1 : Card,
      Store.lookup (combat_step (cards, despawned) delta entity).1 cs.target = some tc1 ∧
      tc1.info.stats.health =
        max 0 (tc.info.stats.health - (card.info.stats.damage : Int)) ∧
      0 ≤ tc1.info.stats.health := by
  have hlook1 : ∀ f : Card → Card,
      Store.lookup (Store.modify cards entity f) cs.target = some tc := by
    intro f
    rw [Store.lookup_modify_ne _ _ _ _ hne]
    exact htc
  simp only [combat_step, hcard, hcs, hfin, if_true, eq_self_iff_true]
  split
  · -- the two-entity fetch succeeded
    rw [Store.lookup_modify_self, hlook1]
    simp only [Option.map_some']
    refine ⟨apply_damage entity card.info.stats.damage tc, ?_, ?_, ?_⟩
    · -- in the death branch the extra modify targets the attacker, not cs.target
      split
      · rw [Store.lookup_modify_ne _ _ _ _ hne, Store.lookup_modify_self, hlook1]
        rfl
      · rw [Store.lookup_modify_self, hlook1]
        rfl
    · rw [apply_damage_health, max_comm]
    · rw [apply_damage_health]
      exact le_max_right _ _
  · rename_i h
    exact absurd ⟨hne, by rw [hlook1]; rfl⟩ h

/-- A goblin engaged on entity 1, its 1-second cooldown finishing after one
more second of ticking. -/
def goblin_attacker : Card :=
  { info := CardInfo.ofType CardType.Goblin
    combat_state := some { cooldown := Timer.from_nanos NANOS_PER_SEC, target := 1 } }

/-- The combat state of `goblin_attacker`. -/
def goblin_cs : CombatState :=
  { cooldown := Timer.from_nanos NANOS_PER_SEC, target := 1 }

/-- Concrete two-card store: engaged goblin 0 and a full-health villager 1. -/
def c4_cards : Store Card := [(0, goblin_attacker), (1, Card.ofType CardType.Villager)]

/-- Witness for C4: goblin 0 (damage 1) strikes villager 1 (health 3) after
one second. -/
theorem C4_damage_clamps_at_zero_witness :
    ∃ tc1 : Card,
      Store.lookup (combat_step (c4_cards, []) NANOS_PER_SEC 0).1 goblin_cs.target
          = some tc1 ∧
      tc1.info.stats.health =
        max 0 ((Card.ofType CardType.Villager).info.stats.health -
          (goblin_attacker.info.stats.damage : Int)) ∧
      0 ≤ tc1.info.stats.health :=
  C4_damage_clamps_at_zero c4_cards [] NANOS_PER_SEC 0 goblin_attacker goblin_cs
    (Card.ofType CardType.Villager) (by decide) (by decide) (by decide) (by decide)
    (by decide)

/-! ## Claim C1: abort of the damage pass on a failed two-entity fetch -/

/-- Store for the C1 counterexample: the engaged goblin's target, entity 1,
no longer exists. -/
def c1_cards : Store Card := [(0, goblin_attacker)]

/-- C1 counterexample: the claim asserts that when the two-entity fetch
fails, "neither card's fields, including the attacker's combat_state, are
modified".  Concretely: goblin 0 is engaged on the despawned entity 1 and
its cooldown finishes, the fetch fails, and the attacker's combat_state —
`some` before the pass — is cleared to `none`, a state change. -/
theorem C1_counterexample :
    goblin_attacker.combat_state.isSome = true ∧
    (Store.lookup (combat_step (c1_cards, []) NANOS_PER_SEC 0).1 0).map
        Card.combat_state = some none := by
  decide

/-- C1 amended: when the attacker's cooldown just finished but the atomic
two-entity fetch fails (the target is the attacker itself or no longer
exists), no damage is applied, no despawn is issued and no other card is
modified — but the attacker is not left untouched: its combat_state is
cleared to none (its cooldown having been ticked). -/
theorem C1_failed_fetch_aborts_but_clears_combat_state
    (cards : Store Card) (despawned : List Entity) (delta : Nat) (entity : Entity)
    (card : Card) (cs : CombatState)
    (hcard : Store.lookup cards entity = some card)
    (hcs : card.combat_state = some cs)
    (hfin : (cs.cooldown.tick delta).just_finished = true)
    (hfail : cs.target = entity ∨ Store.lookup cards cs.target = none) :
    Store.lookup (combat_step (cards, despawned) delta entity).1 entity
        = some { card with combat_state := none } ∧
    (∀ e, e ≠ entity →
      Store.lookup (combat_step (cards, despawned) delta entity).1 e
        = Store.lookup cards e) ∧
    (combat_step (cards, despawned) delta entity).2 = despawned := by
  simp only [combat_step, hcard, hcs, hfin, if_true, eq_self_iff_true]
  split
  · rename_i h
    exfalso
    rcases hfail with heq | hn
    · exact h.1 heq
    · have h2 := h.2
      rw [Store.lookup_modify_ne _ _ _ _ h.1, hn] at h2
      simp at h2
  · refine ⟨?_, ?_, rfl⟩
    · rw [Store.lookup_modify_self, Store.lookup_modify_self, hcard]
      rfl
    · intro e he
      rw [Store.lookup_modify_ne _ _ _ _ he, Store.lookup_modify_ne _ _ _ _ he]

/-- Witness for the amended C1 at the counterexample store. -/
theorem C1_failed_fetch_witness :
    Store.lookup (combat_step (c1_cards, []) NANOS_PER_SEC 0).1 0
        = some { goblin_attacker with combat_state := none } ∧
    (∀ e, e ≠ 0 →
      Store.lookup (combat_step (c1_cards, []) NANOS_PER_SEC 0).1 e
        = Store.lookup c1_cards e) ∧
    (combat_step (c1_cards, []) NANOS_PER_SEC 0).2 = [] :=
  C1_failed_fetch_aborts_but_clears_combat_state c1_cards [] NANOS_PER_SEC 0
    goblin_attacker goblin_cs (by decide) (by decide) (by decide)
    (Or.inr (by decide))

/-! ## Claim C5: death clears the attacker's combat state and despawns -/

/-- C5: whenever the damage pass brings a target's health to exactly zero
(its prior health is at most the attacker's damage), the attacker's
combat_state is cleared to none, the stored target health is zero, and the
target entity is issued a deferred despawn. -/
theorem C5_death_clears_attacker_and_despawns_target
    (cards : Store Card) (despawned : List Entity) (delta : Nat) (entity : Entity)
    (card : Card) (cs : CombatState) (tc : Card)
    (hcard : Store.lookup cards entity = some card)
    (hcs : card.combat_state = some cs)
    (hfin : (cs.cooldown.tick delta).just_finished = true)
    (hne : cs.target ≠ entity)
    (htc : Store.lookup cards cs.target = some tc)
    (hle : tc.info.stats.health ≤ (card.info.stats.damage : Int)) :
    Store.lookup (combat_step (cards, despawned) delta entity).1 entity
        = some { card with combat_state := none } ∧
    (∃ tc1 : Card,
      Store.lookup (combat_step (cards, despawned) delta entity).1 cs.target
          = some tc1 ∧ tc1.info.stats.health = 0) ∧
    (combat_step (cards, despawned) delta entity).2 = despawned ++ [cs.target] := by
  have hlook1 : ∀ f : Card → Card,
      Store.lookup (Store.modify cards entity f) cs.target = some tc := by
    intro f
    rw [Store.lookup_modify_ne _ _ _ _ hne]
    exact htc
  have hdead : (apply_damage entity card.info.stats.damage tc).info.stats.health = 0 := by
    rw [apply_damage_health]
    exact max_eq_right (sub_nonpos.mpr hle)
  simp only [combat_step, hcard, hcs, hfin, if_true, eq_self_iff_true]
  split
  · rw [Store.lookup_modify_self, hlook1]
    simp only [Option.map_some']
    rw [if_pos hdead]
    refine ⟨?_, ⟨apply_damage entity card.info.stats.damage tc, ?_, hdead⟩, rfl⟩
    · rw [Store.lookup_modify_self, Store.lookup_modify_ne _ _ _ _ (Ne.symm hne),
        Store.lookup_modify_self, hcard]
      rfl
    · rw [Store.lookup_modify_ne _ _ _ _ hne, Store.lookup_modify_self, hlook1]
      rfl
  · rename_i h
    exact absurd ⟨hne, by rw [hlook1]; rfl⟩ h

/-- A villager on its last health point. -/
def hurt_villager : Card :=
  { info := { card_type := CardType.Villager
              stats := { health := 1, max_health := 3, damage := 1 } } }

/-- Store for the C5 scenario: engaged goblin 0, villager 1 at health 1. -/
def c5_cards : Store Card := [(0, goblin_attacker), (1, hurt_villager)]

/-- Witness for C5, the spec's Scenario 4: a villager at health 1 takes 1
damage, its health becomes 0, the attacker's combat_state becomes none and
the villager is despawned. -/
theorem C5_death_witness :
    Store.lookup (combat_step (c5_cards, []) NANOS_PER_SEC 0).1 0
        = some { goblin_attacker with combat_state := none } ∧
    (∃ tc1 : Card,
      Store.lookup (combat_step (c5_cards, []) NANOS_PER_SEC 0).1 goblin_cs.target
          = some tc1 ∧ tc1.info.stats.health = 0) ∧
    (combat_step (c5_cards, []) NANOS_PER_SEC 0).2 = [] ++ [goblin_cs.target] :=
  C5_death_clears_attacker_and_despawns_target c5_cards [] NANOS_PER_SEC 0
    goblin_attacker goblin_cs hurt_villager (by decide) (by decide) (by decide)
    (by decide) (by decide) (by decide)

/-! ## Claim C3: try_slotting_card -/

/-- C3: `try_slotting_card` returns true iff the tile is a Woods variant
with an empty slot and the offered card is villager-class; on success it
records the card in the slot and attaches a freshly spawned production
timer to the tile; on failure it returns false with no side effect.  In
particular a Woods tile with an occupied slot never accepts a second call
until unslot. -/
theorem C3_try_slotting_card_spec (t : Tile) (te ce fresh : Entity) (card : Card) :
    (((t.try_slotting_card te ce card fresh).ok = true) ↔
      ((∃ pb, t = Tile.Woods none pb) ∧ card.cardClass = CardClass.Villager)) ∧
    ((t.try_slotting_card te ce card fresh).ok = true →
      (t.try_slotting_card te ce card fresh).tile = Tile.Woods (some ce) (some fresh) ∧
      (t.try_slotting_card te ce card fresh).spawned_bar =
        some (fresh, { current := 0, total := 15 })) ∧
    ((t.try_slotting_card te ce card fresh).ok = false →
      (t.try_slotting_card te ce card fresh).tile = t ∧
      (t.try_slotting_card te ce card fresh).spawned_bar = none) ∧
    (∀ x pb, t = Tile.Woods (some x) pb →
      (t.try_slotting_card te ce card fresh).ok = false) := by
  cases t with
  | Woods sv pb =>
    cases sv with
    | none =>
      by_cases hc : card.cardClass = CardClass.Villager
      · simp [Tile.try_slotting_card, hc]
      · simp [Tile.try_slotting_card, hc]
    | some x =>
      simp [Tile.try_slotting_card]
  | Enemies pb =>
    simp [Tile.try_slotting_card]

/-! ## Claim C6: stack classification -/

/-- The list of card types along the chain walked by `get_cards_types`:
from `current` along `stack_child` links, stopping at a stale identity. -/
def chain_types (cards : Store Card) : Nat → Entity → List CardType
  | 0, _ => []
  | fuel + 1, current =>
    match Store.lookup cards current with
    | none => []
    | some card =>
      match card.stack_child with
      | none => [card.card_type]
      | some child => card.card_type :: chain_types cards fuel child

theorem get_cards_types_walk_eq (cards : Store Card) :
    ∀ (fuel : Nat) (e : Entity) (m : List (CardType × Nat)),
      get_cards_types_walk cards fuel e m = (chain_types cards fuel e).foldl bump m
  | 0, _, _ => rfl
  | fuel + 1, e, m => by
    cases h : Store.lookup cards e with
    | none => simp [get_cards_types_walk, chain_types, h]
    | some card =>
      cases hc : card.stack_child with
      | none => simp [get_cards_types_walk, chain_types, h, hc]
      | some child =>
        simp [get_cards_types_walk, chain_types, h, hc,
          get_cards_types_walk_eq cards fuel child (bump m card.card_type)]

theorem type_count_bump (m : List (CardType × Nat)) (t u : CardType) :
    type_count (bump m t) u = type_count m u + (if t = u then 1 else 0) := by
  induction m with
  | nil => by_cases h : t = u <;> simp [bump, type_count, h]
  | cons p rest ih =>
    obtain ⟨t0, n⟩ := p
    by_cases h0 : t0 = t
    · subst h0
      by_cases hu : t0 = u <;> simp [bump, type_count, hu]
    · by_cases hu : t0 = u
      · subst hu
        have ht : ¬ t = t0 := fun h => h0 h.symm
        simp [bump, type_count, h0, ht]
      · simp [bump, type_count, h0, hu, ih]

theorem type_count_foldl_bump (ts : List CardType) :
    ∀ (m : List (CardType × Nat)) (u : CardType),
      type_count (ts.foldl bump m) u = type_count m u + ts.count u := by
  induction ts with
  | nil => intro m u; simp
  | cons t rest ih =>
    intro m u
    simp only [List.foldl, ih, type_count_bump]
    by_cases h : t = u
    · subst h
      rw [List.count_cons_self]
      simp only [eq_self_iff_true, if_true]
      omega
    · rw [List.count_cons_of_ne (Ne.symm h)]
      rw [if_neg h]
      omega

/-- The breed condition computed by `evaluate_stacks` holds iff the chain is
exactly two villagers. -/
theorem breed_condition_iff (ts : List CardType)
    (hM : ∀ u, type_count (ts.foldl bump []) u = ts.count u) :
    (type_count (ts.foldl bump []) CardType.Villager = 2 ∧
        (ts.foldl bump []).length = 1) ↔
      ts = [CardType.Villager, CardType.Villager] := by
  constructor
  · rintro ⟨hv, hlen⟩
    obtain ⟨p, hp⟩ := List.length_eq_one.mp hlen
    obtain ⟨t0, n⟩ := p
    have hvc : ts.count CardType.Villager = 2 := by rw [← hM]; exact hv
    have ht0 : t0 = CardType.Villager := by
      by_contra h0
      rw [hp] at hv
      simp [type_count, h0] at hv
    have hall : ∀ u ∈ ts, CardType.Villager = u := by
      intro u hu
      have hcount : 0 < ts.count u := List.count_pos_iff.mpr hu
      rw [← hM u, hp] at hcount
      by_contra hne
      have hnu : ¬ t0 = u := by rw [ht0]; exact hne
      simp [type_count, hnu] at hcount
    have hlen2 : ts.length = 2 := by
      rw [← List.count_eq_length.mpr hall]
      exact hvc
    have hrep := List.eq_replicate_iff.mpr ⟨hlen2, fun b hb => (hall b hb).symm⟩
    simpa using hrep
  · intro h
    subst h
    exact ⟨rfl, rfl⟩

/-- C6: stack recomputation classifies the true root as Breed — creating
and attaching a freshly spawned 5-second production timer — iff the chain
walked from the root consists of exactly two cards of the same producible
type with a breeding recipe (two villagers); every other chain composition
is classified Nothing. -/
theorem C6_breed_iff_exactly_two_villagers
    (cards : Store Card) (root fresh : Entity) :
    (classify_stack cards root fresh =
        (StackType.Breed fresh, [(fresh, { current := 0, total := 5 })]) ↔
      chain_types cards (cards.length + 1) root
        = [CardType.Villager, CardType.Villager]) ∧
    (chain_types cards (cards.length + 1) root
        ≠ [CardType.Villager, CardType.Villager] →
      classify_stack cards root fresh = (StackType.Nothing, [])) := by
  have hwalk : get_cards_types root cards =
      (chain_types cards (cards.length + 1) root).foldl bump [] :=
    get_cards_types_walk_eq cards (cards.length + 1) root []
  have hM : ∀ u, type_count ((chain_types cards (cards.length + 1) root).foldl bump []) u
      = (chain_types cards (cards.length + 1) root).count u := by
    intro u
    rw [type_count_foldl_bump]
    simp [type_count]
  have hcond := breed_condition_iff (chain_types cards (cards.length + 1) root) hM
  constructor
  · constructor
    · intro h
      by_contra hne
      have hfalse : ¬ (type_count (get_cards_types root cards) CardType.Villager = 2 ∧
          (get_cards_types root cards).length = 1) := by
        rw [hwalk]
        exact fun hc => hne (hcond.mp hc)
      rw [classify_stack, if_neg hfalse] at h
      exact absurd h (by simp)
    · intro h
      have htrue : type_count (get_cards_types root cards) CardType.Villager = 2 ∧
          (get_cards_types root cards).length = 1 := by
        rw [hwalk]
        exact hcond.mpr h
      rw [classify_stack, if_pos htrue]
  · intro hne
    have hfalse : ¬ (type_count (get_cards_types root cards) CardType.Villager = 2 ∧
        (get_cards_types root cards).length = 1) := by
      rw [hwalk]
      exact fun hc => hne (hcond.mp hc)
    rw [classify_stack, if_neg hfalse]

/-! ## Registry helper lemmas -/

theorem mem_qinsert_self (l : List Entity) (e : Entity) : e ∈ qinsert l e := by
  by_cases h : e ∈ l
  · simp [qinsert, h]
  · simp [qinsert, h]

theorem mem_qinsert_of_mem (l : List Entity) (a b : Entity) (h : a ∈ l) :
    a ∈ qinsert l b := by
  by_cases hb : b ∈ l
  · simpa [qinsert, hb] using h
  · simp [qinsert, hb, h]

theorem lookup_insertR_self {α : Type} (s : Store α) (e : Entity) (v : α) :
    Store.lookup (Store.insertR s e v).1 e = some v := by
  cases h : Store.lookup s e with
  | some old =>
    simp only [Store.insertR, h]
    rw [Store.lookup_modify_self, h]
    rfl
  | none =>
    simp only [Store.insertR, h]
    rw [Store.lookup_append, h]
    simp [Store.lookup]

/-! ## Claim C7: the collision attach pass -/

/-- C7: the attach pass links two colliding cards only when the mover has no
stack_parent, the top of the back card's stack has no stack_child, and both
are stackable; on success it sets top.stack_child = mover and
mover.stack_parent = top, registers top as a Pending StackRoot when it was
not one (keeping an existing entry), queues top, keeps the mover's existing
StackRoot entry while queueing it for recomputation, and otherwise
leaves everything unchanged. -/
theorem C7_attach_guards_and_effects
    (cards : Store Card) (sr : StackRoots) (ex ey top : Entity) (cx ctop : Card)
    (htop : find_stack_top cards cards.length ey = top)
    (hex : ex ≠ top)
    (hcx : Store.lookup cards ex = some cx)
    (hctop : Store.lookup cards top = some ctop) :
    (¬ (cx.stack_parent = none ∧ ctop.stack_child = none ∧
          ctop.is_stackable = true ∧ cx.is_stackable = true) →
      collide_attach cards sr ex ey = (cards, sr)) ∧
    ((cx.stack_parent = none ∧ ctop.stack_child = none ∧
          ctop.is_stackable = true ∧ cx.is_stackable = true) →
      Store.lookup (collide_attach cards sr ex ey).1 ex
          = some { cx with stack_parent := some top } ∧
      Store.lookup (collide_attach cards sr ex ey).1 top
          = some { ctop with stack_child := some ex } ∧
      Store.lookup (collide_attach cards sr ex ey).2.roots top
          = some ((Store.lookup sr.roots top).getD StackType.Pending) ∧
      top ∈ (collide_attach cards sr ex ey).2.queued_stack_recomputations ∧
      Store.lookup (collide_attach cards sr ex ey).2.roots ex
          = Store.lookup sr.roots ex ∧
      ((Store.lookup sr.roots ex).isSome = true →
        ex ∈ (collide_attach cards sr ex ey).2.queued_stack_recomputations)) := by
  simp only [collide_attach, htop, hcx, hctop, if_neg hex]
  constructor
  · intro hng
    rw [if_neg]
    intro hg
    exact hng ⟨hg.1, hg.2.1, hg.2.2.1, hg.2.2.2⟩
  · intro hg
    rw [if_pos ⟨hg.1, hg.2.1, hg.2.2.1, hg.2.2.2⟩]
    refine ⟨?_, ?_, ?_, ?_, ?_, ?_⟩
    · rw [Store.lookup_modify_self, Store.lookup_modify_ne _ _ _ _ hex, hcx]
      rfl
    · rw [Store.lookup_modify_ne _ _ _ _ (Ne.symm hex), Store.lookup_modify_self, hctop]
      rfl
    · cases hr : Store.lookup sr.roots top with
      | some s => simp [hr]
      | none =>
        simp only [hr]
        rw [Store.lookup_append, hr]
        simp [Store.lookup]
    · cases hr : Store.lookup sr.roots ex with
      | some s => exact mem_qinsert_of_mem _ _ _ (mem_qinsert_self _ _)
      | none => exact mem_qinsert_self _ _
    · cases hr : Store.lookup sr.roots top with
      | some s => rfl
      | none =>
        rw [Store.lookup_append]
        cases hx : Store.lookup sr.roots ex with
        | some v => rfl
        | none => simp [Store.lookup, Ne.symm hex]
    · intro hxs
      cases hr : Store.lookup sr.roots ex with
      | some s => exact mem_qinsert_self _ _
      | none => rw [hr] at hxs; simp at hxs

/-! ## Claim C8: pick-up detach -/

/-- C8: picking up a card inside a stack clears the link on both sides (the
held card's stack_parent and the parent's stack_child become none) and
queues the old parent for recomputation; when the held card also has a
stack_child it is additionally registered as a new Pending StackRoot and
queued — the middle card of a 3-stack becomes a new root of its remaining
sub-stack. -/
theorem C8_pickup_detaches_both_sides
    (w : World) (entity p : Entity) (card pc : Card)
    (hcard : Store.lookup w.cards entity = some card)
    (hpc : card.is_player_controlled = true)
    (hparent : card.stack_parent = some p)
    (hne : p ≠ entity)
    (hpcard : Store.lookup w.cards p = some pc) :
    Store.lookup (select_pickup w entity).cards entity
        = some { card with slotted_in_tile := none, stack_parent := none } ∧
    Store.lookup (select_pickup w entity).cards p
        = some { pc with stack_child := none } ∧
    p ∈ (select_pickup w entity).stack_roots.queued_stack_recomputations ∧
    (card.stack_child.isSome = true →
      Store.lookup (select_pickup w entity).stack_roots.roots entity
          = some StackType.Pending ∧
      entity ∈ (select_pickup w entity).stack_roots.queued_stack_recomputations) := by
  by_cases hch : card.stack_child.isSome = true
  · simp only [select_pickup, hcard, hpc, hparent, hch, if_true]
    refine ⟨?_, ?_, ?_, fun _ => ⟨?_, ?_⟩⟩
    · rw [Store.lookup_modify_ne _ _ _ _ (Ne.symm hne), Store.lookup_modify_self, hcard]
      rfl
    · rw [Store.lookup_modify_self, Store.lookup_modify_ne _ _ _ _ hne, hpcard]
      rfl
    · exact mem_qinsert_of_mem _ _ _ (mem_qinsert_self _ _)
    · exact lookup_insertR_self _ _ _
    · exact mem_qinsert_self _ _
  · have hch0 : card.stack_child.isSome = false := by
      cases h : card.stack_child.isSome
      · rfl
      · exact absurd h hch
    simp only [select_pickup, hcard, hpc, hparent, hch0, Bool.false_eq_true, if_false,
      if_true, eq_self_iff_true]
    refine ⟨?_, ?_, ?_, fun h => absurd h (by simp)⟩
    · rw [Store.lookup_modify_ne _ _ _ _ (Ne.symm hne), Store.lookup_modify_self, hcard]
      rfl
    · rw [Store.lookup_modify_self, Store.lookup_modify_ne _ _ _ _ hne, hpcard]
      rfl
    · exact mem_qinsert_self _ _

/-- Two loose villagers for the attach witness: card 1 lands on card 0. -/
def c7_cards : Store Card :=
  [(0, Card.ofType CardType.Villager), (1, Card.ofType CardType.Villager)]

/-- Initially empty StackRoots registry. -/
def c7_sr : StackRoots := { roots := [], queued_stack_recomputations := [] }

/-- Witness for C7: attaching loose villager 1 onto loose villager 0 links
both sides, registers 0 as a Pending root and queues it. -/
theorem C7_attach_witness :
    Store.lookup (collide_attach c7_cards c7_sr 1 0).1 1
        = some { Card.ofType CardType.Villager with stack_parent := some 0 } ∧
    Store.lookup (collide_attach c7_cards c7_sr 1 0).1 0
        = some { Card.ofType CardType.Villager with stack_child := some 1 } ∧
    Store.lookup (collide_attach c7_cards c7_sr 1 0).2.roots 0
        = some StackType.Pending ∧
    0 ∈ (collide_attach c7_cards c7_sr 1 0).2.queued_stack_recomputations := by
  have h := (C7_attach_guards_and_effects c7_cards c7_sr 1 0 0
    (Card.ofType CardType.Villager) (Card.ofType CardType.Villager)
    (by decide) (by decide) (by decide) (by decide)).2 (by decide)
  exact ⟨h.1, h.2.1, by simpa using h.2.2.1, h.2.2.2.1⟩

/-- The middle card of the 3-stack pickup witness. -/
def c8_middle : Card :=
  { Card.ofType CardType.Villager with stack_parent := some 0, stack_child := some 2 }

/-- The top (root) card of the 3-stack pickup witness. -/
def c8_top : Card := { Card.ofType CardType.Villager with stack_child := some 1 }

/-- A three-card stack 0 → 1 → 2 (root to bottom). -/
def c8_cards : Store Card :=
  [(0, c8_top), (1, c8_middle),
   (2, { Card.ofType CardType.Villager with stack_parent := some 1 })]

/-- World holding the 3-card stack. -/
def c8_world : World :=
  { cards := c8_cards
    transforms := []
    stack_roots := { roots := [(0, StackType.Nothing)], queued_stack_recomputations := [] }
    tiles := []
    bars := []
    selected_card := none
    hovered_tile := none
    next_id := 3 }

/-- Witness for C8, the spec's Scenario 5: picking up the middle card of a
3-card stack. -/
theorem C8_pickup_witness :
    Store.lookup (select_pickup c8_world 1).cards 1
        = some { c8_middle with slotted_in_tile := none, stack_parent := none } ∧
    Store.lookup (select_pickup c8_world 1).cards 0
        = some { c8_top with stack_child := none } ∧
    0 ∈ (select_pickup c8_world 1).stack_roots.queued_stack_recomputations ∧
    (c8_middle.stack_child.isSome = true →
      Store.lookup (select_pickup c8_world 1).stack_roots.roots 1
          = some StackType.Pending ∧
      1 ∈ (select_pickup c8_world 1).stack_roots.queued_stack_recomputations) :=
  C8_pickup_detaches_both_sides c8_world 1 0 c8_middle c8_top (by decide) (by decide)
    (by decide) (by decide) (by decide)

/-! ## Claim C10: stale production-bar identity after unslotting -/

/-- C10: unslotting a villager from a Woods tile clears the slot and
despawns the bar entity but leaves the tile's progress_bar field holding
the stale identity; the production pass silently skips such a tile (no Log
spawned, no state change), and a later successful try_slot overwrites the
stale field with a fresh bar. -/
theorem C10_stale_bar_tolerated
    (w : World) (v te b : Entity) (card : Card)
    (hcard : Store.lookup w.cards v = some card)
    (hpctrl : card.is_player_controlled = true)
    (hslot : card.slotted_in_tile = some te)
    (htile : Store.lookup w.tiles te = some (Tile.Woods (some v) (some b))) :
    Store.lookup (select_pickup w v).tiles te = some (Tile.Woods none (some b)) ∧
    Store.lookup (select_pickup w v).bars b = none ∧
    (∀ (delta_secs : ℚ) (tr : Vec3) (st : TileTickState),
      Store.lookup st.bars b = none →
      evaluate_tile_one delta_secs tr st (Tile.Woods none (some b)) = st) ∧
    (∀ (ce fresh : Entity) (card2 : Card), card2.cardClass = CardClass.Villager →
      (Tile.try_slotting_card (Tile.Woods none (some b)) te ce card2 fresh).ok = true ∧
      (Tile.try_slotting_card (Tile.Woods none (some b)) te ce card2 fresh).tile
          = Tile.Woods (some ce) (some fresh)) := by
  refine ⟨?_, ?_, ?_, ?_⟩
  · simp only [select_pickup, hcard, hpctrl, hslot, htile, if_true, eq_self_iff_true]
    rw [Store.lookup_modify_self, htile]
    rfl
  · simp only [select_pickup, hcard, hpctrl, hslot, htile, if_true, eq_self_iff_true]
    rw [Store.lookup_remove]
    simp
  · intro delta_secs tr st hb
    simp [evaluate_tile_one, hb]
  · intro ce fresh card2 hc2
    simp [Tile.try_slotting_card, hc2]

/-- The slotted villager of the C10 witness. -/
def c10_villager : Card :=
  { Card.ofType CardType.Villager with slotted_in_tile := some 20 }

/-- World for the C10 witness: villager 10 slotted in Woods tile 20 whose
production bar is entity 30. -/
def c10_world : World :=
  { cards := [(10, c10_villager)]
    transforms := []
    stack_roots := { roots := [], queued_stack_recomputations := [] }
    tiles := [(20, Tile.Woods (some 10) (some 30))]
    bars := [(30, { current := 7, total := 15 })]
    selected_card := none
    hovered_tile := none
    next_id := 31 }

/-- Witness for C10 at the concrete world. -/
theorem C10_stale_bar_witness :
    Store.lookup (select_pickup c10_world 10).tiles 20
        = some (Tile.Woods none (some 30)) ∧
    Store.lookup (select_pickup c10_world 10).bars 30 = none ∧
    (∀ (delta_secs : ℚ) (tr : Vec3) (st : TileTickState),
      Store.lookup st.bars 30 = none →
      evaluate_tile_one delta_secs tr st (Tile.Woods none (some 30)) = st) ∧
    (∀ (ce fresh : Entity) (card2 : Card), card2.cardClass = CardClass.Villager →
      (Tile.try_slotting_card (Tile.Woods none (some 30)) 20 ce card2 fresh).ok = true ∧
      (Tile.try_slotting_card (Tile.Woods none (some 30)) 20 ce card2 fresh).tile
          = Tile.Woods (some ce) (some fresh)) :=
  C10_stale_bar_tolerated c10_world 10 20 30 c10_villager (by decide) (by decide)
    (by decide) (by decide)

/-! ## Claim C9: engaged cards are skipped by targeting -/

/-- In a duplicate-free store (bevy guarantees unique entity identities),
every list entry is what lookup returns for its key. -/
theorem lookup_of_mem_nodup {α : Type} (l : Store α)
    (hnd : (l.map Prod.fst).Nodup) (p : Entity × α) (hp : p ∈ l) :
    Store.lookup l p.1 = some p.2 := by
  induction l with
  | nil => cases hp
  | cons q rest ih =>
    rw [List.map_cons] at hnd
    rcases List.mem_cons.mp hp with h | hp2
    · subst h
      simp [Store.lookup]
    · have hq : ¬ q.1 = p.1 := by
        intro h
        exact (List.nodup_cons.mp hnd).1 (h ▸ List.mem_map_of_mem Prod.fst hp2)
      simp [Store.lookup, hq, ih (List.nodup_cons.mp hnd).2 hp2]

/-- Whatever a first-loop step of `handle_enemies` adds to the target list
comes from a card entry without a combat state. -/
theorem mem_enemy_target_acc (cards : Store Card) (transforms : Store Vec3)
    (acc : List (Entity × Entity × Vec3)) (p : Entity × Card)
    (x : Entity × Entity × Vec3) (hx : x ∈ enemy_target_acc cards transforms acc p) :
    x ∈ acc ∨ (x.1 = p.1 ∧ p.2.combat_state = none) := by
  unfold enemy_target_acc at hx
  split at hx
  · exact Or.inl hx
  · rename_i hsome
    have hnone : p.2.combat_state = none := Option.not_isSome_iff_eq_none.mp hsome
    split at hx
    · split at hx
      · exact Or.inl hx
      · split at hx
        · rcases List.mem_append.mp hx with h | h
          · exact Or.inl h
          · rcases List.mem_singleton.mp h with rfl
            exact Or.inr ⟨rfl, hnone⟩
        · exact Or.inl hx
    · exact Or.inl hx

/-- Every entry of the target list of `handle_enemies` names an attacker
whose card entry has no combat state. -/
theorem mem_enemy_targets (cards : Store Card) (transforms : Store Vec3)
    (x : Entity × Entity × Vec3) (hx : x ∈ enemy_targets_of cards transforms) :
    ∃ p ∈ cards, x.1 = p.1 ∧ p.2.combat_state = none := by
  suffices h : ∀ (l : List (Entity × Card)) (acc : List (Entity × Entity × Vec3)),
      x ∈ l.foldl (enemy_target_acc cards transforms) acc →
      x ∈ acc ∨ ∃ p ∈ l, x.1 = p.1 ∧ p.2.combat_state = none by
    rcases h cards [] hx with h0 | h0
    · cases h0
    · exact h0
  intro l
  induction l with
  | nil => intro acc h; exact Or.inl h
  | cons q rest ih =>
    intro acc h
    rw [List.foldl_cons] at h
    rcases ih _ h with h0 | h0
    · rcases mem_enemy_target_acc cards transforms acc q x h0 with h1 | h1
      · exact Or.inl h1
      · exact Or.inr ⟨q, List.mem_cons_self _ _, h1⟩
    · obtain ⟨p, hp, hh⟩ := h0
      exact Or.inr ⟨p, List.mem_cons_of_mem _ hp, hh⟩

/-- The second loop of `handle_enemies` only writes the attacker's card. -/
theorem handle_enemy_one_lookup_ne (delta : Nat)
    (approach : Vec3 → Vec3 → ℚ → Vec3) (w0 : World)
    (t : Entity × Entity × Vec3) (e : Entity) (h : t.1 ≠ e) :
    Store.lookup (handle_enemy_one delta approach w0 t).cards e
      = Store.lookup w0.cards e := by
  simp only [handle_enemy_one]
  split
  · split
    · rfl
    · split
      · exact Store.lookup_modify_ne _ _ _ _ (Ne.symm h)
      · exact Store.lookup_modify_ne _ _ _ _ (Ne.symm h)
  · rfl

theorem foldl_handle_lookup (delta : Nat) (approach : Vec3 → Vec3 → ℚ → Vec3)
    (l : List (Entity × Entity × Vec3)) :
    ∀ (w0 : World) (e : Entity), (∀ t ∈ l, t.1 ≠ e) →
      Store.lookup (l.foldl (handle_enemy_one delta approach) w0).cards e
        = Store.lookup w0.cards e := by
  induction l with
  | nil => intro w0 e _; rfl
  | cons t rest ih =>
    intro w0 e h
    rw [List.foldl_cons, ih _ _ (fun t2 ht => h t2 (List.mem_cons_of_mem _ ht)),
      handle_enemy_one_lookup_ne _ _ _ _ _ (h t (List.mem_cons_self _ _))]

/-- C9: once a card is Engaging (combat_state present), the targeting pass
skips it entirely — its card, target and cooldown are left untouched; the
damage pass reads no positions (its card outcome is the same for every
transform store), keeps the same target with a ticked cooldown whenever the
cooldown has not completed, and removes the combat state exactly when a
completed cooldown meets a failed paired fetch (self-target or despawned
target) or a target whose clamped health reaches zero (see
C4_damage_clamps_at_zero for the damage itself). -/
theorem C9_engaged_skipped_and_removal_conditions
    (w : World) (delta : Nat) (approach : Vec3 → Vec3 → ℚ → Vec3)
    (e : Entity) (card : Card)
    (hnd : (w.cards.map Prod.fst).Nodup)
    (hcard : Store.lookup w.cards e = some card)
    (hcs : card.combat_state.isSome = true) :
    Store.lookup (handle_enemies_sys w delta approach).cards e = some card ∧
    (∀ transforms2 : Store Vec3,
      (combat_sys { w with transforms := transforms2 } delta).cards
        = Store.removeAll (combat_results w.cards delta).1
            (combat_results w.cards delta).2) ∧
    (∀ (despawned : List Entity) (cs : CombatState), card.combat_state = some cs →
      (cs.cooldown.tick delta).just_finished = false →
      Store.lookup (combat_step (w.cards, despawned) delta e).1 e
        = some { card with
            combat_state := some (CombatState.mk (cs.cooldown.tick delta) cs.target) }) ∧
    (∀ (despawned : List Entity) (cs : CombatState), card.combat_state = some cs →
      (cs.cooldown.tick delta).just_finished = true →
      ((Store.lookup (combat_step (w.cards, despawned) delta e).1 e).bind
          Card.combat_state = none ↔
        (cs.target = e ∨ Store.lookup w.cards cs.target = none ∨
          ∃ tc, Store.lookup w.cards cs.target = some tc ∧
            (apply_damage e card.info.stats.damage tc).info.stats.health = 0))) := by
  refine ⟨?_, fun _ => rfl, ?_, ?_⟩
  · unfold handle_enemies_sys
    rw [foldl_handle_lookup _ _ _ _ _ ?_, hcard]
    intro t ht heq
    obtain ⟨p, hp, hxp, hnone⟩ := mem_enemy_targets w.cards w.transforms t ht
    have hl := lookup_of_mem_nodup w.cards hnd p hp
    rw [← hxp, heq, hcard] at hl
    cases hl
    rw [hnone] at hcs
    cases hcs
  · intro despawned cs hcseq hfin
    simp only [combat_step, hcard, hcseq, hfin, Bool.false_eq_true, if_false]
    rw [Store.lookup_modify_self, hcard]
    rfl
  · intro despawned cs hcseq hfin
    simp only [combat_step, hcard, hcseq, hfin, if_true, eq_self_iff_true]
    by_cases htgt : cs.target = e
    · rw [if_neg (fun hc => hc.1 htgt)]
      rw [Store.lookup_modify_self, Store.lookup_modify_self, hcard]
      exact iff_of_true rfl (Or.inl htgt)
    · have hlook1 : ∀ f : Card → Card,
          Store.lookup (Store.modify w.cards e f) cs.target
            = Store.lookup w.cards cs.target := by
        intro f
        exact Store.lookup_modify_ne _ _ _ _ htgt
      cases hl : Store.lookup w.cards cs.target with
      | none =>
        rw [if_neg ?hfailed]
        case hfailed =>
          intro hc
          rw [hlook1, hl] at hc
          exact absurd hc.2 (by simp)
        rw [Store.lookup_modify_self, Store.lookup_modify_self, hcard]
        exact iff_of_true rfl (Or.inr (Or.inl rfl))
      | some tc =>
        rw [if_pos ⟨htgt, by rw [hlook1, hl]; rfl⟩]
        rw [Store.lookup_modify_self, hlook1, hl]
        simp only [Option.map_some']
        by_cases hdead : (apply_damage e card.info.stats.damage tc).info.stats.health = 0
        · rw [if_pos hdead]
          rw [Store.lookup_modify_self, Store.lookup_modify_ne _ _ _ _ (Ne.symm htgt),
            Store.lookup_modify_self, hcard]
          exact iff_of_true rfl (Or.inr (Or.inr ⟨tc, rfl, hdead⟩))
        · rw [if_neg hdead]
          rw [Store.lookup_modify_ne _ _ _ _ (Ne.symm htgt),
            Store.lookup_modify_self, hcard]
          refine iff_of_false (by simp) ?_
          rintro (h | h | ⟨tc2, htc2, hd2⟩)
          · exact htgt h
          · cases h
          · cases htc2
            exact hdead hd2

/-- The world of the C9 witness: engaged goblin 0, full-health villager 1. -/
def c9_world : World :=
  { cards := c4_cards
    transforms := [(0, { x := 0, y := 0, z := 0 }), (1, { x := 0, y := 0, z := 0 })]
    stack_roots := { roots := [], queued_stack_recomputations := [] }
    tiles := []
    bars := []
    selected_card := none
    hovered_tile := none
    next_id := 2 }

/-- A trivial stand-in for the uninterpreted approach step. -/
def c9_approach : Vec3 → Vec3 → ℚ → Vec3 := fun a _ _ => a

/-- Witness for C9 at the concrete world. -/
theorem C9_engaged_witness :
    Store.lookup (handle_enemies_sys c9_world NANOS_PER_SEC c9_approach).cards 0
        = some goblin_attacker ∧
    (∀ transforms2 : Store Vec3,
      (combat_sys { c9_world with transforms := transforms2 } NANOS_PER_SEC).cards
        = Store.removeAll (combat_results c9_world.cards NANOS_PER_SEC).1
            (combat_results c9_world.cards NANOS_PER_SEC).2) ∧
    (∀ (despawned : List Entity) (cs : CombatState),
      goblin_attacker.combat_state = some cs →
      (cs.cooldown.tick NANOS_PER_SEC).just_finished = false →
      Store.lookup (combat_step (c9_world.cards, despawned) NANOS_PER_SEC 0).1 0
        = some { goblin_attacker with
            combat_state := some (CombatState.mk (cs.cooldown.tick NANOS_PER_SEC) cs.target) }) ∧
    (∀ (despawned : List Entity) (cs : CombatState),
      goblin_attacker.combat_state = some cs →
      (cs.cooldown.tick NANOS_PER_SEC).just_finished = true →
      ((Store.lookup (combat_step (c9_world.cards, despawned) NANOS_PER_SEC 0).1 0).bind
          Card.combat_state = none ↔
        (cs.target = 0 ∨ Store.lookup c9_world.cards cs.target = none ∨
          ∃ tc, Store.lookup c9_world.cards cs.target = some tc ∧
            (apply_damage 0 goblin_attacker.info.stats.damage tc).info.stats.health = 0))) :=
  C9_engaged_skipped_and_removal_conditions c9_world NANOS_PER_SEC c9_approach 0
    goblin_attacker (by decide) (by decide) (by decide)

/-! ## Claim C2: stack chain integrity over a full tick -/

/-- The stack-chain integrity property of the spec: every card either has no
stack_parent, or its parent exists and points back via stack_child.  The
two disjuncts are mutually exclusive because the second forces the parent
link to be present, so "exactly one" holds. -/
def StackInv (cards : Store Card) : Prop :=
  ∀ e c, Store.lookup cards e = some c →
    c.stack_parent = none ∨
    ∃ p pc, c.stack_parent = some p ∧ Store.lookup cards p = some pc ∧
      pc.stack_child = some e

/-- Executable per-card check of the integrity property. -/
def parentLinkedB (cards : Store Card) (e : Entity) (c : Card) : Bool :=
  match c.stack_parent with
  | none => true
  | some p =>
    match Store.lookup cards p with
    | some pc => pc.stack_child == some e
    | none => false

/-- Executable check of the integrity property over a whole store. -/
def stackInvB (cards : Store Card) : Bool :=
  cards.all (fun p => parentLinkedB cards p.1 p.2)

theorem mem_of_lookup {α : Type} (l : Store α) (e : Entity) (v : α)
    (h : Store.lookup l e = some v) : (e, v) ∈ l := by
  induction l with
  | nil => cases h
  | cons q rest ih =>
    obtain ⟨k, v0⟩ := q
    by_cases hk : k = e
    · subst hk
      simp only [Store.lookup, if_pos rfl] at h
      cases h
      exact List.mem_cons_self _ _
    · simp only [Store.lookup, if_neg hk] at h
      exact List.mem_cons_of_mem _ (ih h)

theorem stackInv_of_stackInvB (cards : Store Card) (h : stackInvB cards = true) :
    StackInv cards := by
  intro e c hl
  have hall := List.all_eq_true.mp h (e, c) (mem_of_lookup cards e c hl)
  unfold parentLinkedB at hall
  cases hpar : c.stack_parent with
  | none => exact Or.inl rfl
  | some p =>
    rw [hpar] at hall
    cases hlp : Store.lookup cards p with
    | none => simp [hlp] at hall
    | some pc =>
      simp only [hlp, beq_iff_eq] at hall
      exact Or.inr ⟨p, pc, rfl, hlp, hall⟩

/-- The stack-link projection of a card. -/
def links (c : Card) : Option Entity × Option Entity :=
  (c.stack_parent, c.stack_child)

/-- Two stores agree on every card's stack links. -/
def LinkEq (a b : Store Card) : Prop :=
  ∀ e, (Store.lookup a e).map links = (Store.lookup b e).map links

theorem linkEq_refl (a : Store Card) : LinkEq a a := fun _ => rfl

theorem linkEq_trans {a b c : Store Card} (h1 : LinkEq a b) (h2 : LinkEq b c) :
    LinkEq a c := fun e => (h1 e).trans (h2 e)

theorem linkEq_modify (l : Store Card) (k : Entity) (f : Card → Card)
    (hf : ∀ c, links (f c) = links c) : LinkEq (Store.modify l k f) l := by
  intro e
  rw [Store.lookup_modify]
  split
  · cases hl : Store.lookup l k with
    | none => rename_i he; rw [he, hl]; rfl
    | some c => rename_i he; rw [he, hl]; simp [hf]
  · rfl

theorem map_links_some {o1 o2 : Option Card} (h : o1.map links = o2.map links)
    (c : Card) (h1 : o1 = some c) :
    ∃ c2, o2 = some c2 ∧ links c2 = links c := by
  subst h1
  cases o2 with
  | none => simp at h
  | some c2 => exact ⟨c2, rfl, by simpa using h.symm⟩

theorem stackInv_of_linkEq {a b : Store Card} (h : LinkEq a b) (hinv : StackInv b) :
    StackInv a := by
  intro e c hl
  obtain ⟨c0, hb, hlinks⟩ := map_links_some (h e) c hl
  have hpar : c.stack_parent = c0.stack_parent := congrArg Prod.fst hlinks.symm
  rcases hinv e c0 hb with h0 | ⟨p, pc, hp, hlp, hpc⟩
  · exact Or.inl (hpar.trans h0)
  · have h2 : (Store.lookup b p).map links = (Store.lookup a p).map links :=
      (h p).symm
    obtain ⟨pc2, ha2, hlinks2⟩ := map_links_some h2 pc hlp
    exact Or.inr ⟨p, pc2, hpar.trans hp, ha2,
      (congrArg Prod.snd hlinks2).trans hpc⟩

theorem stackInv_append (cards new : Store Card)
    (hnew : ∀ p ∈ new, p.2.stack_parent = none) (hinv : StackInv cards) :
    StackInv (cards ++ new) := by
  intro e c hl
  rw [Store.lookup_append] at hl
  cases hb : Store.lookup cards e with
  | some c0 =>
    rw [hb] at hl
    injection hl with hc
    subst hc
    rcases hinv e c0 hb with h0 | ⟨p, pc, hp, hlp, hpc⟩
    · exact Or.inl h0
    · refine Or.inr ⟨p, pc, hp, ?_, hpc⟩
      rw [Store.lookup_append, hlp]
  | none =>
    rw [hb] at hl
    exact Or.inl (hnew (e, c) (mem_of_lookup new e c hl))

/-- Linking an unparented card under a childless stack top preserves chain
integrity (the pointer update of `collide_cards`). -/
theorem stackInv_link (cards : Store Card) (ex top : Entity) (cx ctop : Card)
    (hinv : StackInv cards)
    (hex : ¬ ex = top)
    (hcx : Store.lookup cards ex = some cx)
    (hctop : Store.lookup cards top = some ctop)
    (hctc : ctop.stack_child = none) :
    StackInv (Store.modify (Store.modify cards top
      (fun c => { c with stack_child := some ex })) ex
      (fun c => { c with stack_parent := some top })) := by
  intro e c hl
  rw [Store.lookup_modify] at hl
  by_cases he : e = ex
  · rw [if_pos he, Store.lookup_modify_ne _ _ _ _ hex, hcx] at hl
    simp only [Option.map_some'] at hl
    injection hl with hc
    subst hc
    refine Or.inr ⟨top, { ctop with stack_child := some ex }, rfl, ?_, ?_⟩
    · rw [Store.lookup_modify_ne _ _ _ _ (Ne.symm hex), Store.lookup_modify_self, hctop]
      rfl
    · rw [he]
  · rw [if_neg he, Store.lookup_modify] at hl
    by_cases ht : e = top
    · rw [if_pos ht, hctop] at hl
      simp only [Option.map_some'] at hl
      injection hl with hc
      subst hc
      rcases hinv top ctop hctop with h0 | ⟨p, pc, hp, hlp, hpc⟩
      · exact Or.inl h0
      · by_cases hpex : p = ex
        · rw [hpex, hcx] at hlp
          injection hlp with hpceq
          refine Or.inr ⟨ex, { cx with stack_parent := some top }, hp.trans (by rw [hpex]), ?_, ?_⟩
          · rw [Store.lookup_modify_self, Store.lookup_modify_ne _ _ _ _ hex, hcx]
            rfl
          · show cx.stack_child = some e
            rw [hpceq, hpc, ht]
        · by_cases hptop : p = top
          · rw [hptop, hctop] at hlp
            injection hlp with hpceq
            rw [← hpceq, hctc] at hpc
            cases hpc
          · refine Or.inr ⟨p, pc, hp, ?_, hpc.trans (by rw [ht])⟩
            rw [Store.lookup_modify_ne _ _ _ _ hpex,
              Store.lookup_modify_ne _ _ _ _ hptop, hlp]
    · rw [if_neg ht] at hl
      rcases hinv e c hl with h0 | ⟨p, pc, hp, hlp, hpc⟩
      · exact Or.inl h0
      · by_cases hpt : p = top
        · rw [hpt, hctop] at hlp
          injection hlp with hpceq
          rw [← hpceq, hctc] at hpc
          cases hpc
        · by_cases hpe : p = ex
          · rw [hpe, hcx] at hlp
            injection hlp with hpceq
            refine Or.inr ⟨ex, { cx with stack_parent := some top },
              hp.trans (by rw [hpe]), ?_, ?_⟩
            · rw [Store.lookup_modify_self, Store.lookup_modify_ne _ _ _ _ hex, hcx]
              rfl
            · show cx.stack_child = some e
              rw [hpceq, hpc]
          · refine Or.inr ⟨p, pc, hp, ?_, hpc⟩
            rw [Store.lookup_modify_ne _ _ _ _ hpe,
              Store.lookup_modify_ne _ _ _ _ hpt, hlp]

/-- Clearing a card's stack_parent (and tile slot) preserves chain
integrity. -/
theorem stackInv_clear_parent (cards : Store Card) (entity : Entity)
    (hinv : StackInv cards) :
    StackInv (Store.modify cards entity
      (fun c => { c with slotted_in_tile := none, stack_parent := none })) := by
  intro e c hl
  rw [Store.lookup_modify] at hl
  by_cases he : e = entity
  · cases hc0 : Store.lookup cards entity with
    | none => rw [if_pos he, hc0] at hl; cases hl
    | some c0 =>
      rw [if_pos he, hc0] at hl
      simp only [Option.map_some'] at hl
      injection hl with hc
      subst hc
      exact Or.inl rfl
  · rw [if_neg he] at hl
    rcases hinv e c hl with h0 | ⟨p, pc, hp, hlp, hpc⟩
    · exact Or.inl h0
    · by_cases hpe : p = entity
      · refine Or.inr ⟨p, { pc with slotted_in_tile := none, stack_parent := none },
          hp, ?_, hpc⟩
        rw [hpe, Store.lookup_modify_self, ← hpe, hlp]
        rfl
      · refine Or.inr ⟨p, pc, hp, ?_, hpc⟩
        rw [Store.lookup_modify_ne _ _ _ _ hpe, hlp]

/-- Detaching a picked-up card from its parent on both sides preserves chain
integrity (the pointer update of `select_card`). -/
theorem stackInv_detach (cards : Store Card) (entity p : Entity) (card : Card)
    (hinv : StackInv cards)
    (hcard : Store.lookup cards entity = some card)
    (hpar : card.stack_parent = some p) :
    StackInv (Store.modify (Store.modify cards entity
      (fun c => { c with slotted_in_tile := none, stack_parent := none })) p
      (fun c => { c with stack_child := none })) := by
  -- facts about the parent back-pointer in the original store
  obtain ⟨pc0, hlp0, hpc0⟩ :
      ∃ pc0, Store.lookup cards p = some pc0 ∧ pc0.stack_child = some entity := by
    rcases hinv entity card hcard with h0 | ⟨q, qc, hq, hlq, hqc⟩
    · rw [hpar] at h0; cases h0
    · rw [hpar] at hq
      injection hq with hq2
      rw [← hq2] at hlq
      exact ⟨qc, hlq, hqc⟩
  intro e c hl
  rw [Store.lookup_modify] at hl
  by_cases he : e = p
  · rw [if_pos he, Store.lookup_modify] at hl
    by_cases hpe : p = entity
    · rw [if_pos hpe, hcard] at hl
      simp only [Option.map_some'] at hl
      injection hl with hc
      subst hc
      exact Or.inl rfl
    · rw [if_neg hpe, hlp0] at hl
      simp only [Option.map_some'] at hl
      injection hl with hc
      subst hc
      -- c = pc0 with its child cleared; its parent is pc0's
      cases hpp : pc0.stack_parent with
      | none => exact Or.inl rfl
      | some q =>
        rcases hinv p pc0 hlp0 with h0 | ⟨q2, qc, hq2, hlq, hqc⟩
        · rw [hpp] at h0; cases h0
        · rw [hpp] at hq2
          injection hq2 with hq3
          rw [← hq3] at hlq
          by_cases hqp : q = p
          · -- self-parent: forces p = entity, contradicting hpe
            rw [hqp, hlp0] at hlq
            injection hlq with hly
            rw [hly, hqc] at hpc0
            injection hpc0 with hpe2
            exact absurd hpe2 hpe
          · by_cases hqe : q = entity
            · rw [hqe, hcard] at hlq
              injection hlq with hly
              refine Or.inr ⟨q, { card with slotted_in_tile := none, stack_parent := none },
                rfl, ?_, ?_⟩
              · rw [Store.lookup_modify_ne _ _ _ _ hqp, hqe,
                  Store.lookup_modify_self, hcard]
                rfl
              · show card.stack_child = some e
                rw [hly, hqc, he]
            · refine Or.inr ⟨q, qc, rfl, ?_, hqc.trans (by rw [he])⟩
              rw [Store.lookup_modify_ne _ _ _ _ hqp,
                Store.lookup_modify_ne _ _ _ _ hqe, hlq]
  · rw [if_neg he, Store.lookup_modify] at hl
    by_cases hee : e = entity
    · rw [if_pos hee, hcard] at hl
      simp only [Option.map_some'] at hl
      injection hl with hc
      subst hc
      exact Or.inl rfl
    · rw [if_neg hee] at hl
      rcases hinv e c hl with h0 | ⟨q, qc, hq, hlq, hqc⟩
      · exact Or.inl h0
      · by_cases hqp : q = p
        · -- the parent pointer targets p, whose child pointed at entity in
          -- the original store, so e = entity — contradicting hee
          rw [hqp, hlp0] at hlq
          injection hlq with hly
          rw [hly, hqc] at hpc0
          injection hpc0 with hee2
          exact absurd hee2 hee
        · by_cases hqe : q = entity
          · rw [hqe, hcard] at hlq
            injection hlq with hly
            refine Or.inr ⟨q, { card with slotted_in_tile := none, stack_parent := none },
              hq, ?_, ?_⟩
            · rw [Store.lookup_modify_ne _ _ _ _ hqp, hqe,
                Store.lookup_modify_self, hcard]
              rfl
            · show card.stack_child = some e
              rw [← hly] at hqc
              exact hqc
          · refine Or.inr ⟨q, qc, hq, ?_, hqc⟩
            rw [Store.lookup_modify_ne _ _ _ _ hqp,
              Store.lookup_modify_ne _ _ _ _ hqe, hlq]

/-! ### Per-pass preservation of chain integrity -/

theorem collide_attach_stackInv (cards : Store Card) (sr : StackRoots)
    (ex ey : Entity) (hinv : StackInv cards) :
    StackInv (collide_attach cards sr ex ey).1 := by
  simp only [collide_attach]
  split
  · exact hinv
  · rename_i hex
    split
    · rename_i cx ctop hcx hctop
      split
      · rename_i hg
        exact stackInv_link cards ex _ cx ctop hinv hex hcx hctop hg.2.1
      · exact hinv
    · exact hinv

theorem collide_cards_sys_stackInv (w : World) (collisions : List (Entity × Entity))
    (hinv : StackInv w.cards) : StackInv (collide_cards_sys w collisions).cards := by
  unfold collide_cards_sys
  generalize stack_x_on_y_of w collisions = pairs
  suffices h : ∀ (l : List (Entity × Entity)) (st : Store Card × StackRoots),
      StackInv st.1 →
      StackInv ((l.foldl (fun st p => collide_attach st.1 st.2 p.1 p.2) st).1) by
    exact h pairs (w.cards, w.stack_roots) hinv
  intro l
  induction l with
  | nil => intro st h; exact h
  | cons p rest ih =>
    intro st h
    rw [List.foldl_cons]
    exact ih _ (collide_attach_stackInv st.1 st.2 p.1 p.2 h)

theorem select_pickup_stackInv (w : World) (entity : Entity)
    (hinv : StackInv w.cards) : StackInv (select_pickup w entity).cards := by
  simp only [select_pickup]
  split
  · exact hinv
  · rename_i card hcard
    split
    · split
      · exact stackInv_clear_parent w.cards entity hinv
      · rename_i p hpar
        split
        · exact stackInv_detach w.cards entity p card hinv hcard hpar
        · exact stackInv_detach w.cards entity p card hinv hcard hpar
    · exact hinv

theorem select_release_linkEq (w : World) (slot_hit : Bool) :
    LinkEq (select_release w slot_hit).cards w.cards := by
  simp only [select_release]
  split
  · exact linkEq_refl _
  · split
    · exact linkEq_refl _
    · split
      · exact linkEq_refl _
      · split
        · exact linkEq_refl _
        · split
          · exact linkEq_refl _
          · split
            · split
              · exact linkEq_modify _ _ _ (fun c => rfl)
              · exact linkEq_refl _
            · exact linkEq_refl _

theorem select_card_sys_stackInv (w : World) (pressed : Option Entity)
    (released : Bool) (slot_hit : Bool) (hinv : StackInv w.cards) :
    StackInv (select_card_sys w pressed released slot_hit).cards := by
  have h1 : StackInv (match pressed with
      | some entity => select_pickup w entity
      | none => w).cards := by
    cases pressed with
    | none => exact hinv
    | some entity => exact select_pickup_stackInv w entity hinv
  simp only [select_card_sys]
  split
  · exact stackInv_of_linkEq (select_release_linkEq _ _) h1
  · exact h1

theorem root_tick_one_pending (transforms : Store Vec3) (ds : ℚ)
    (st : RootTickState) (entry : Entity × StackType)
    (h : ∀ p ∈ st.pending_cards, p.2.1.stack_parent = none) :
    ∀ p ∈ (root_tick_one transforms ds st entry).pending_cards,
      p.2.1.stack_parent = none := by
  simp only [root_tick_one]
  split
  · split
    · exact h
    · split
      · split
        · intro p hp
          rcases List.mem_append.mp hp with h1 | h1
          · exact h p h1
          · rcases List.mem_singleton.mp h1 with rfl
            rfl
        · exact h
      · exact h
  · exact h

theorem root_tick_fold_pending (transforms : Store Vec3) (ds : ℚ)
    (l : List (Entity × StackType)) :
    ∀ st : RootTickState, (∀ p ∈ st.pending_cards, p.2.1.stack_parent = none) →
      ∀ p ∈ (l.foldl (root_tick_one transforms ds) st).pending_cards,
        p.2.1.stack_parent = none := by
  induction l with
  | nil => intro st h; exact h
  | cons entry rest ih =>
    intro st h
    rw [List.foldl_cons]
    exact ih _ (root_tick_one_pending transforms ds st entry h)

theorem evaluate_stacks_sys_stackInv (w : World) (delta : Nat)
    (hinv : StackInv w.cards) : StackInv (evaluate_stacks_sys w delta).cards := by
  unfold evaluate_stacks_sys
  apply stackInv_append _ _ _ hinv
  intro p hp
  obtain ⟨q, hq, rfl⟩ := List.mem_map.mp hp
  exact root_tick_fold_pending _ _ _ _ (by intro x hx; cases hx) q hq

theorem evaluate_tile_one_pending (ds : ℚ) (tr : Vec3) (st : TileTickState)
    (tile : Tile) (h : ∀ p ∈ st.pending_cards, p.2.1.stack_parent = none) :
    ∀ p ∈ (evaluate_tile_one ds tr st tile).pending_cards,
      p.2.1.stack_parent = none := by
  simp only [evaluate_tile_one]
  split
  · split
    · exact h
    · split
      · exact h
      · split
        · intro p hp
          rcases List.mem_append.mp hp with h1 | h1
          · exact h p h1
          · rcases List.mem_singleton.mp h1 with rfl
            rfl
        · exact h
  · split
    · exact h
    · split
      · exact h
      · split
        · intro p hp
          rcases List.mem_append.mp hp with h1 | h1
          · exact h p h1
          · rcases List.mem_singleton.mp h1 with rfl
            rfl
        · exact h

theorem evaluate_tiles_sys_stackInv (w : World) (delta : Nat)
    (hinv : StackInv w.cards) : StackInv (evaluate_tiles_sys w delta).cards := by
  have h : ∀ (l : List (Entity × Tile)) (st : TileTickState),
      (∀ p ∈ st.pending_cards, p.2.1.stack_parent = none) →
      ∀ q ∈ (l.foldl (fun st entry =>
          match Store.lookup w.transforms entry.1 with
          | none => st
          | some tr => evaluate_tile_one ((delta : ℚ) / (NANOS_PER_SEC : ℚ)) tr st entry.2)
        st).pending_cards, q.2.1.stack_parent = none := by
    intro l
    induction l with
    | nil => intro st h; exact h
    | cons entry rest ih =>
      intro st h0
      rw [List.foldl_cons]
      apply ih
      cases hl : Store.lookup w.transforms entry.1 with
      | none => exact h0
      | some tr => exact evaluate_tile_one_pending _ tr st entry.2 h0
  unfold evaluate_tiles_sys
  apply stackInv_append _ _ _ hinv
  intro p hp
  obtain ⟨q, hq, rfl⟩ := List.mem_map.mp hp
  exact h w.tiles { bars := w.bars, pending_cards := [], next_id := w.next_id }
    (by intro x hx; cases hx) q hq

theorem handle_enemy_one_linkEq (delta : Nat) (approach : Vec3 → Vec3 → ℚ → Vec3)
    (w0 : World) (t : Entity × Entity × Vec3) :
    LinkEq (handle_enemy_one delta approach w0 t).cards w0.cards := by
  simp only [handle_enemy_one]
  split
  · split
    · exact linkEq_refl _
    · split
      · exact linkEq_modify _ _ _ (fun c => rfl)
      · exact linkEq_modify _ _ _ (fun c => rfl)
  · exact linkEq_refl _

theorem handle_enemies_sys_linkEq (w : World) (delta : Nat)
    (approach : Vec3 → Vec3 → ℚ → Vec3) :
    LinkEq (handle_enemies_sys w delta approach).cards w.cards := by
  unfold handle_enemies_sys
  generalize enemy_targets_of w.cards w.transforms = l
  induction l generalizing w with
  | nil => exact linkEq_refl _
  | cons t rest ih =>
    rw [List.foldl_cons]
    exact linkEq_trans (ih (handle_enemy_one delta approach w t))
      (handle_enemy_one_linkEq delta approach w t)

theorem apply_damage_linkEq (a : Entity) (d : Nat) :
    ∀ c, links (apply_damage a d c) = links c := by
  intro c
  unfold links
  rw [(apply_damage_links a d c).1, (apply_damage_links a d c).2]

theorem combat_step_linkEq (st : Store Card × List Entity) (delta : Nat)
    (e : Entity) : LinkEq (combat_step st delta e).1 st.1 := by
  obtain ⟨cards, despawned⟩ := st
  simp only [combat_step]
  split
  · exact linkEq_refl _
  · split
    · exact linkEq_refl _
    · split
      · split
        · split
          · split
            · exact linkEq_trans (linkEq_modify _ _ _ (fun c => rfl))
                (linkEq_trans
                  (linkEq_modify _ _ _ (apply_damage_linkEq _ _))
                  (linkEq_modify _ _ _ (fun c => rfl)))
            · exact linkEq_trans
                (linkEq_modify _ _ _ (apply_damage_linkEq _ _))
                (linkEq_modify _ _ _ (fun c => rfl))
          · exact linkEq_trans
              (linkEq_modify _ _ _ (apply_damage_linkEq _ _))
              (linkEq_modify _ _ _ (fun c => rfl))
        · exact linkEq_trans (linkEq_modify _ _ _ (fun c => rfl))
            (linkEq_modify _ _ _ (fun c => rfl))
      · exact linkEq_modify _ _ _ (fun c => rfl)

theorem combat_results_linkEq (cards : Store Card) (delta : Nat) :
    LinkEq (combat_results cards delta).1 cards := by
  unfold combat_results
  generalize cards.map Prod.fst = l
  suffices h : ∀ (l : List Entity) (st : Store Card × List Entity),
      LinkEq ((l.foldl (fun st e => combat_step st delta e) st).1) st.1 by
    exact h l (cards, [])
  intro l
  induction l with
  | nil => intro st; exact linkEq_refl _
  | cons e rest ih =>
    intro st
    rw [List.foldl_cons]
    exact linkEq_trans (ih _) (combat_step_linkEq st delta e)

/-- C2 amended: stack chain integrity is an invariant of the full tick only
in the absence of combat deaths — if it holds before a tick and the damage
pass of that tick issues no despawn, it holds afterwards.  (The unqualified
claim is refuted by C2_counterexample: destroying a stacked card leaves a
dangling half-link that survives the tick.) -/
theorem C2_integrity_preserved_when_no_deaths
    (w : World) (input : TickInput) (delta : Nat)
    (approach : Vec3 → Vec3 → ℚ → Vec3)
    (hinv : StackInv w.cards)
    (hnodeath : tick_despawns w input delta approach = []) :
    StackInv (tick w input delta approach).cards := by
  have h5 : StackInv (tick_pre_combat w input delta approach).cards := by
    unfold tick_pre_combat
    exact stackInv_of_linkEq (handle_enemies_sys_linkEq _ delta approach)
      (evaluate_tiles_sys_stackInv _ delta
        (evaluate_stacks_sys_stackInv _ delta
          (select_card_sys_stackInv _ input.pressed input.released input.slot_hit
            (collide_cards_sys_stackInv w input.collisions hinv))))
  unfold tick_despawns at hnodeath
  simp only [tick, combat_sys]
  rw [hnodeath]
  exact stackInv_of_linkEq (combat_results_linkEq _ delta) h5

/-- The goblin of the C2 counterexample: enough health to survive the
retaliation, engaged on villager 1 with its cooldown finishing this tick. -/
def c2_goblin : Card :=
  { info := { card_type := CardType.Goblin
              stats := { health := 5, max_health := 5, damage := 1 } }
    combat_state := some { cooldown := Timer.from_nanos NANOS_PER_SEC, target := 1 } }

/-- Villager 1: one health point left, root of the stack 1 → 2. -/
def c2_villager1 : Card :=
  { info := { card_type := CardType.Villager
              stats := { health := 1, max_health := 3, damage := 1 } }
    stack_child := some 2 }

/-- Villager 2: stacked under villager 1. -/
def c2_villager2 : Card :=
  { Card.ofType CardType.Villager with stack_parent := some 1 }

/-- The C2 counterexample world. -/
def c2_world : World :=
  { cards := [(0, c2_goblin), (1, c2_villager1), (2, c2_villager2)]
    transforms := []
    stack_roots := { roots := [(1, StackType.Nothing)], queued_stack_recomputations := [] }
    tiles := []
    bars := []
    selected_card := none
    hovered_tile := none
    next_id := 3 }

/-- A tick with no player input and no collisions. -/
def c2_input : TickInput :=
  { collisions := [], pressed := none, released := false, slot_hit := false }

/-- C2 counterexample: the claim asserts chain integrity after *any* full
tick.  Here goblin 0 kills villager 1 — the stack parent of villager 2 —
during the damage pass; after the tick completes, card 2 still carries
stack_parent = some 1 while entity 1 no longer exists: a dangling half-link
survived the tick (the gap §9 of the spec itself flags). -/
theorem C2_counterexample :
    ¬ StackInv (tick c2_world c2_input NANOS_PER_SEC c9_approach).cards := by
  intro h
  have h2 : Store.lookup (tick c2_world c2_input NANOS_PER_SEC c9_approach).cards 2
      = some c2_villager2 := by decide
  have h1 : Store.lookup (tick c2_world c2_input NANOS_PER_SEC c9_approach).cards 1
      = none := by decide
  rcases h 2 c2_villager2 h2 with h0 | ⟨p, pc, hp, hlp, _⟩
  · exact absurd h0 (by decide)
  · rw [show c2_villager2.stack_parent = some 1 from rfl] at hp
    injection hp with hp1
    rw [← hp1] at hlp
    rw [h1] at hlp
    cases hlp

/-- Witness for the amended C2: a 1-nanosecond tick of the same stacked
world completes no cooldown, despawns nothing, and preserves integrity. -/
theorem C2_integrity_witness :
    StackInv (tick c2_world c2_input 1 c9_approach).cards :=
  C2_integrity_preserved_when_no_deaths c2_world c2_input 1 c9_approach
    (stackInv_of_stackInvB _ (by decide)) (by decide)

end CardCombinator
